import Mathlib

/-!
Verification of the `RenderSceneImpl` render-scene component store
(render_scene.cpp) against its natural-language specification.

The C++ code is shallowly embedded: machine floats whose exact bit-level
behaviour is irrelevant to the claims are modelled as rationals, raw binary
blobs as little-endian byte lists (`List Nat`, each element < 256), and
entity handles (`EntityPtr`, with `INVALID_ENTITY`) as `Option Nat`.
-/

namespace LumixSpec

/-- `Math::degreesToRadians` (engine math helper): `deg * pi / 180`.
The float constant `PI` is abstracted as a parameter `pi`. -/
def degreesToRadians (pi deg : ℚ) : ℚ := deg * pi / 180

/-- `RenderSceneImpl::getCameraLODMultiplier(float fov, bool is_ortho)`:
returns `1` for orthographic cameras, otherwise squares
`fov / degreesToRadians(60)`. -/
def getCameraLODMultiplier (pi fov : ℚ) (is_ortho : Bool) : ℚ :=
  if is_ortho then 1
  else
    let lod_multiplier := fov / degreesToRadians pi 60
    lod_multiplier * lod_multiplier

/-- `RenderSceneImpl::createCamera` initialises the new camera's fov to
`Math::degreesToRadians(60)`. -/
def createCameraFov (pi : ℚ) : ℚ := degreesToRadians pi 60

/-- C3: for every fov and ortho flag, `getCameraLODMultiplier` returns
`(fov / 60°)²` for perspective cameras and exactly `1` for orthographic
ones; at the `createCamera` default 60° fov it returns `1` (within `1e-5`)
and at a 120° fov it returns `4` (within `1e-5`). -/
theorem C3_camera_lod_multiplier (pi fov : ℚ) (hpi : pi ≠ 0) :
    getCameraLODMultiplier pi fov true = 1
    ∧ getCameraLODMultiplier pi fov false = (fov / degreesToRadians pi 60) ^ 2
    ∧ |getCameraLODMultiplier pi (createCameraFov pi) false - 1| ≤ 1 / 100000
    ∧ |getCameraLODMultiplier pi (degreesToRadians pi 120) false - 4| ≤ 1 / 100000 := by
  have hd : degreesToRadians pi 60 ≠ 0 :=
    div_ne_zero (mul_ne_zero (by norm_num) hpi) (by norm_num)
  have h1 : degreesToRadians pi 60 / degreesToRadians pi 60 = 1 := div_self hd
  have h120 : degreesToRadians pi 120 = 2 * degreesToRadians pi 60 := by
    simp only [degreesToRadians]
    ring
  have h2 : degreesToRadians pi 120 / degreesToRadians pi 60 = 2 := by
    rw [h120, mul_div_assoc, div_self hd, mul_one]
  refine ⟨rfl, ?_, ?_, ?_⟩
  · simp [getCameraLODMultiplier, sq]
  · simp only [getCameraLODMultiplier, createCameraFov, h1]
    norm_num
  · simp only [getCameraLODMultiplier, h2]
    norm_num

/-- Witness for C3 at the concrete value `pi = 3` (the hypothesis `pi ≠ 0`
is discharged numerically). -/
theorem C3_camera_lod_multiplier_witness :
    getCameraLODMultiplier 3 5 true = 1
    ∧ getCameraLODMultiplier 3 5 false = (5 / degreesToRadians 3 60) ^ 2
    ∧ |getCameraLODMultiplier 3 (createCameraFov 3) false - 1| ≤ 1 / 100000
    ∧ |getCameraLODMultiplier 3 (degreesToRadians 3 120) false - 4| ≤ 1 / 100000 :=
  C3_camera_lod_multiplier 3 5 (by norm_num)

/-! ### Point lights: dense array plus entity→index side map (C6)

`m_point_lights : Array<PointLight>` with `m_point_lights_map :
HashMap<EntityRef, int>`.  The hash map (unique keys) is modelled as an
association list with first-match semantics. -/

/-- `PointLight`: only the owning entity matters for the side-map claims;
the photometric parameters are bundled into one opaque payload. -/
structure PointLight where
  entity : Nat
  payload : Nat
deriving Repr, DecidableEq

/-- Lookup in `HashMap<EntityRef, int>` (`operator[]` read side). -/
def mapLookup (m : List (Nat × Nat)) (e : Nat) : Option Nat :=
  match m with
  | [] => none
  | p :: t => if p.1 = e then some p.2 else mapLookup t e

/-- `HashMap::erase`. -/
def mapErase (m : List (Nat × Nat)) (e : Nat) : List (Nat × Nat) :=
  match m with
  | [] => []
  | p :: t => if p.1 = e then mapErase t e else p :: mapErase t e

/-- `HashMap::operator[] = v` (update the key if present, insert it
otherwise). -/
def mapSet (m : List (Nat × Nat)) (k v : Nat) : List (Nat × Nat) :=
  match m with
  | [] => [(k, v)]
  | p :: t => if p.1 = k then (k, v) :: t else p :: mapSet t k v

/-- `Array::eraseFast(index)`: copy the last element into `index`, then pop
the last element. -/
def eraseFastPL (l : List PointLight) (i : Nat) : List PointLight :=
  match l.getLast? with
  | none => l
  | some last => (l.set i last).dropLast

/-- The scene state relevant to point-light destruction: the dense array
`m_point_lights` and the side map `m_point_lights_map`. -/
structure PointLightStore where
  lights : List PointLight
  map : List (Nat × Nat)
deriving Repr, DecidableEq

/-- `RenderSceneImpl::destroyPointLight`: look the entity up in the side
map, swap-erase its dense slot, erase the map entry, and if the freed slot
is still within the array repair the map entry of the element that was
swapped into it. -/
def destroyPointLight (s : PointLightStore) (e : Nat) : PointLightStore :=
  match mapLookup s.map e with
  | none => s
  | some index =>
    let lights := eraseFastPL s.lights index
    let m1 := mapErase s.map e
    let m2 := if index < lights.length then
                mapSet m1 (lights.getD index ⟨0, 0⟩).entity index
              else m1
    ⟨lights, m2⟩

/-- Well-formedness of the dense-array/side-map pair: the map sends the
entity stored at each slot to that slot, and every map entry points at a
slot holding its key. -/
def PLWF (s : PointLightStore) : Prop :=
  (∀ j pl, s.lights[j]? = some pl → mapLookup s.map pl.entity = some j)
  ∧ (∀ e i, mapLookup s.map e = some i →
      ∃ pl, s.lights[i]? = some pl ∧ pl.entity = e)

theorem mapLookup_erase_self (m : List (Nat × Nat)) (e : Nat) :
    mapLookup (mapErase m e) e = none := by
  induction m with
  | nil => rfl
  | cons p t ih =>
    simp only [mapErase]
    by_cases hp : p.1 = e
    · rw [if_pos hp]
      exact ih
    · rw [if_neg hp]
      simp only [mapLookup]
      rw [if_neg hp]
      exact ih

theorem mapLookup_erase_ne (m : List (Nat × Nat)) (e k : Nat) (hk : k ≠ e) :
    mapLookup (mapErase m e) k = mapLookup m k := by
  induction m with
  | nil => rfl
  | cons p t ih =>
    simp only [mapErase]
    by_cases hp : p.1 = e
    · rw [if_pos hp, ih]
      simp only [mapLookup]
      rw [if_neg (by rw [hp]; exact fun h => hk h.symm)]
    · rw [if_neg hp]
      simp only [mapLookup]
      by_cases hpk : p.1 = k
      · rw [if_pos hpk, if_pos hpk]
      · rw [if_neg hpk, if_neg hpk, ih]

theorem mapLookup_set_self (m : List (Nat × Nat)) (k v : Nat) :
    mapLookup (mapSet m k v) k = some v := by
  induction m with
  | nil => simp [mapSet, mapLookup]
  | cons p t ih =>
    simp only [mapSet]
    by_cases hp : p.1 = k
    · rw [if_pos hp]
      simp [mapLookup]
    · rw [if_neg hp]
      simp only [mapLookup]
      rw [if_neg hp]
      exact ih

theorem mapLookup_set_ne (m : List (Nat × Nat)) (k v q : Nat) (hq : q ≠ k) :
    mapLookup (mapSet m k v) q = mapLookup m q := by
  induction m with
  | nil =>
    simp only [mapSet, mapLookup]
    rw [if_neg (fun h => hq h.symm)]
  | cons p t ih =>
    simp only [mapSet]
    by_cases hp : p.1 = k
    · rw [if_pos hp]
      simp only [mapLookup]
      rw [if_neg (fun h => hq h.symm), if_neg (by rw [hp]; exact fun h => hq h.symm)]
    · rw [if_neg hp]
      simp only [mapLookup]
      by_cases hpq : p.1 = q
      · rw [if_pos hpq, if_pos hpq]
      · rw [if_neg hpq, if_neg hpq, ih]

/-- C6: destroying a point light stored at a non-last dense index `i`
swaps the last element into slot `i` and repairs the side map: the moved
light's entity now maps to `i`, the destroyed entity is gone from the map,
and every remaining light's map entry still names its slot. -/
theorem C6_destroy_point_light_swap (s : PointLightStore) (e i : Nat)
    (hwf : PLWF s) (hloc : mapLookup s.map e = some i)
    (hnotlast : i + 1 < s.lights.length) :
    (destroyPointLight s e).lights.length + 1 = s.lights.length
    ∧ (destroyPointLight s e).lights[i]? = s.lights[s.lights.length - 1]?
    ∧ (∀ pl, s.lights[s.lights.length - 1]? = some pl →
        mapLookup (destroyPointLight s e).map pl.entity = some i)
    ∧ mapLookup (destroyPointLight s e).map e = none
    ∧ ∀ j pl, (destroyPointLight s e).lights[j]? = some pl →
        mapLookup (destroyPointLight s e).map pl.entity = some j := by
  obtain ⟨hwf1, hwf2⟩ := hwf
  have hn : 0 < s.lights.length := by omega
  have hi : i < s.lights.length := by omega
  have hlt : s.lights.length - 1 < s.lights.length := by omega
  set last := s.lights[s.lights.length - 1] with hlastdef
  have hlastq : s.lights[s.lights.length - 1]? = some last := List.getElem?_eq_getElem hlt
  have hlast : s.lights.getLast? = some last := by
    rw [List.getLast?_eq_getElem?, hlastq]
  -- the swapped array
  have hlights : (destroyPointLight s e).lights = (s.lights.set i last).dropLast := by
    simp [destroyPointLight, hloc, eraseFastPL, hlast]
  have hlen : (destroyPointLight s e).lights.length + 1 = s.lights.length := by
    rw [hlights, List.length_dropLast, List.length_set]
    omega
  have hilt : i < (destroyPointLight s e).lights.length := by omega
  -- element at slot i after the swap
  have hgeti : (destroyPointLight s e).lights[i]? = some last := by
    have hd : i < ((s.lights.set i last).dropLast).length := by
      rw [← hlights]
      exact hilt
    rw [hlights, List.getElem?_eq_getElem hd, List.getElem_dropLast, List.getElem_set_self]
  -- slots other than i keep their original element
  have hkeep : ∀ j, j ≠ i → j < (destroyPointLight s e).lights.length →
      (destroyPointLight s e).lights[j]? = s.lights[j]? := by
    intro j hji hj
    have hd : j < ((s.lights.set i last).dropLast).length := by
      rw [← hlights]
      exact hj
    have hjs : j < s.lights.length := by omega
    rw [hlights, List.getElem?_eq_getElem hd, List.getElem?_eq_getElem hjs]
    congr 1
    rw [List.getElem_dropLast, List.getElem_set_ne (fun hh => hji hh.symm)]
  -- entities at distinct slots are distinct (via the map)
  have hinj : ∀ (j1 j2 : Nat) (pl1 pl2 : PointLight),
      s.lights[j1]? = some pl1 → s.lights[j2]? = some pl2 →
      pl1.entity = pl2.entity → j1 = j2 := by
    intro j1 j2 pl1 pl2 h1 h2 hee
    have a1 := hwf1 j1 pl1 h1
    have a2 := hwf1 j2 pl2 h2
    rw [hee, a2] at a1
    exact (Option.some_injective _ a1.symm)
  -- the destroyed entity sits at slot i
  obtain ⟨pli, hpli, hei⟩ := hwf2 e i hloc
  -- the moved entity differs from the destroyed one
  have hlaste : last.entity ≠ e := by
    intro hcon
    have := hinj (s.lights.length - 1) i last pli hlastq hpli (by rw [hcon, hei])
    omega
  -- shape of the final map
  have harr : eraseFastPL s.lights i = (destroyPointLight s e).lights := by
    rw [hlights]
    simp [eraseFastPL, hlast]
  have hgetD : (eraseFastPL s.lights i).getD i ⟨0, 0⟩ = last := by
    rw [harr, List.getD_eq_getElem _ _ hilt]
    have hsome := List.getElem?_eq_getElem (l := (destroyPointLight s e).lights) (n := i) hilt
    rw [hgeti] at hsome
    exact (Option.some_injective _ hsome).symm
  have hmap : (destroyPointLight s e).map
      = mapSet (mapErase s.map e) last.entity i := by
    conv_lhs => simp only [destroyPointLight, hloc]
    rw [if_pos (by rw [harr]; exact hilt), hgetD]
  refine ⟨hlen, by rw [hgeti, hlastq], ?_, ?_, ?_⟩
  · intro pl hpl
    rw [hlastq] at hpl
    cases hpl
    rw [hmap, mapLookup_set_self]
  · rw [hmap, mapLookup_set_ne _ _ _ _ (fun h => hlaste h.symm), mapLookup_erase_self]
  · intro j pl hj
    have hjlen : j < (destroyPointLight s e).lights.length := by
      by_contra hge
      rw [List.getElem?_eq_none (by omega)] at hj
      cases hj
    by_cases hji : j = i
    · subst hji
      rw [hgeti] at hj
      cases hj
      rw [hmap, mapLookup_set_self]
    · have hj2 : s.lights[j]? = some pl := by
        rw [← hkeep j hji hjlen]
        exact hj
      have hkey1 : pl.entity ≠ last.entity := by
        intro hcon
        have := hinj j (s.lights.length - 1) pl last hj2 hlastq hcon
        omega
      have hkey2 : pl.entity ≠ e := by
        intro hcon
        have := hinj j i pl pli hj2 hpli (by rw [hcon, hei])
        omega
      rw [hmap, mapLookup_set_ne _ _ _ _ hkey1, mapLookup_erase_ne _ _ _ hkey2]
      exact hwf1 j pl hj2

/-- Witness for C6: a concrete two-light store where the light of entity 7
at slot 0 is destroyed and the light of entity 9 moves down from slot 1. -/
theorem C6_destroy_point_light_swap_witness :
    (destroyPointLight ⟨[⟨7, 0⟩, ⟨9, 1⟩], [(7, 0), (9, 1)]⟩ 7).lights.length + 1 = 2
    ∧ (destroyPointLight ⟨[⟨7, 0⟩, ⟨9, 1⟩], [(7, 0), (9, 1)]⟩ 7).lights[0]?
        = ([⟨7, 0⟩, ⟨9, 1⟩] : List PointLight)[2 - 1]?
    ∧ (∀ pl, ([⟨7, 0⟩, ⟨9, 1⟩] : List PointLight)[2 - 1]? = some pl →
        mapLookup (destroyPointLight ⟨[⟨7, 0⟩, ⟨9, 1⟩], [(7, 0), (9, 1)]⟩ 7).map pl.entity
          = some 0)
    ∧ mapLookup (destroyPointLight ⟨[⟨7, 0⟩, ⟨9, 1⟩], [(7, 0), (9, 1)]⟩ 7).map 7 = none
    ∧ ∀ j pl, (destroyPointLight ⟨[⟨7, 0⟩, ⟨9, 1⟩], [(7, 0), (9, 1)]⟩ 7).lights[j]? = some pl →
        mapLookup (destroyPointLight ⟨[⟨7, 0⟩, ⟨9, 1⟩], [(7, 0), (9, 1)]⟩ 7).map pl.entity
          = some j := by
  have hwf : PLWF ⟨[⟨7, 0⟩, ⟨9, 1⟩], [(7, 0), (9, 1)]⟩ := by
    constructor
    · intro j pl h
      match j with
      | 0 => cases h; decide
      | 1 => cases h; decide
      | n + 2 => simp at h
    · intro e i hei
      simp only [mapLookup] at hei
      by_cases h7 : (7 : Nat) = e
      · subst h7
        rw [if_pos rfl] at hei
        cases hei
        exact ⟨⟨7, 0⟩, rfl, rfl⟩
      · by_cases h9 : (9 : Nat) = e
        · subst h9
          rw [if_neg h7, if_pos rfl] at hei
          cases hei
          exact ⟨⟨9, 1⟩, rfl, rfl⟩
        · rw [if_neg h7, if_neg h9] at hei
          cases hei
  have := C6_destroy_point_light_swap ⟨[⟨7, 0⟩, ⟨9, 1⟩], [(7, 0), (9, 1)]⟩ 7 0 hwf
    (by decide) (by decide)
  simpa using this

/-! ### Bone attachments: forward update (C4, C5)

`RenderSceneImpl::updateBoneAttachment` recomputes the child entity's world
transform from the parent entity transform, the parent pose's bone local
transform, and the cached relative transform.  Machine floats are modelled
as rationals. -/

/-- 3-component vector. -/
structure V3 where
  x : ℚ
  y : ℚ
  z : ℚ
deriving Repr, DecidableEq

def V3.add (a b : V3) : V3 := ⟨a.x + b.x, a.y + b.y, a.z + b.z⟩

def v3zero : V3 := ⟨0, 0, 0⟩

/-- Quaternion. -/
structure Q4 where
  x : ℚ
  y : ℚ
  z : ℚ
  w : ℚ
deriving Repr, DecidableEq

/-- Hamilton product. -/
def Q4.mul (a b : Q4) : Q4 :=
  ⟨a.w * b.x + a.x * b.w + a.y * b.z - a.z * b.y,
   a.w * b.y - a.x * b.z + a.y * b.w + a.z * b.x,
   a.w * b.z + a.x * b.y - a.y * b.x + a.z * b.w,
   a.w * b.w - a.x * b.x - a.y * b.y - a.z * b.z⟩

def qid : Q4 := ⟨0, 0, 0, 1⟩

/-- Rotation of a vector by a (unit) quaternion, `q * v * conj q`. -/
def Q4.rotate (q : Q4) (v : V3) : V3 :=
  let r := (q.mul ⟨v.x, v.y, v.z, 0⟩).mul ⟨-q.x, -q.y, -q.z, q.w⟩
  ⟨r.x, r.y, r.z⟩

/-- `Transform` (position, rotation, scale) of `engine/universe`. -/
structure Transform where
  pos : V3
  rot : Q4
  scale : ℚ
deriving Repr, DecidableEq

/-- `LocalRigidTransform` (position + rotation only). -/
structure LocalRigidTransform where
  pos : V3
  rot : Q4
deriving Repr, DecidableEq

/-- Modelled from the spec: composition `Transform ∘ LocalRigidTransform`
used by `parent_entity_transform * bone_transform * relative_transform`
(the concrete operator lives in `engine/universe`, which is not part of
the sources; the spec describes it as rigid-transform composition that
only overrides translation and rotation). -/
def Transform.mulLRT (a : Transform) (b : LocalRigidTransform) : Transform :=
  ⟨a.pos.add (a.rot.rotate b.pos), a.rot.mul b.rot, a.scale⟩

/-- `Pose`: `count` bones with absolute positions and rotations. -/
structure Pose where
  count : Nat
  positions : List V3
  rotations : List Q4
deriving Repr, DecidableEq

/-- `BoneAttachment`. -/
structure BoneAttachment where
  entity : Nat
  parent_entity : Option Nat
  bone_index : Int
  relative_transform : LocalRigidTransform
deriving Repr, DecidableEq

/-- Generic association-list lookup (first match). -/
def alookup {α : Type} (l : List (Nat × α)) (k : Nat) : Option α :=
  match l with
  | [] => none
  | p :: r => if p.1 = k then some p.2 else alookup r k

/-- Generic association-list update-or-insert. -/
def aset {α : Type} (l : List (Nat × α)) (k : Nat) (v : α) : List (Nat × α) :=
  match l with
  | [] => [(k, v)]
  | p :: r => if p.1 = k then (k, v) :: r else p :: aset r k v

theorem alookup_aset_self {α : Type} (l : List (Nat × α)) (k : Nat) (v : α) :
    alookup (aset l k v) k = some v := by
  induction l with
  | nil => simp [aset, alookup]
  | cons p r ih =>
    simp only [aset]
    by_cases hp : p.1 = k
    · rw [if_pos hp]
      simp [alookup]
    · rw [if_neg hp]
      simp only [alookup]
      rw [if_neg hp]
      exact ih

/-- The scene/universe state touched by `updateBoneAttachment`: which
entities carry a model-instance component, each model instance's pose (the
value `lockPose` returns, `none` when the pose is unavailable), and the
universe's entity transforms. -/
structure AttScene where
  hasModelInstance : List Nat
  poses : List (Nat × Pose)
  transforms : List (Nat × Transform)
deriving Repr, DecidableEq

/-- `RenderSceneImpl::lockPose`: the instance's pose, if it exists. -/
def lockPose (s : AttScene) (e : Nat) : Option Pose :=
  alookup s.poses e

def defaultTransform : Transform := ⟨v3zero, qid, 1⟩

/-- `Universe::getTransform`. -/
def getTransform (s : AttScene) (e : Nat) : Transform :=
  (alookup s.transforms e).getD defaultTransform

/-- `Universe::setTransform`. -/
def setTransform (s : AttScene) (e : Nat) (t : Transform) : AttScene :=
  { s with transforms := aset s.transforms e t }

/-- The world transform `RenderSceneImpl::updateBoneAttachment` (forward
update) writes to the child entity; `none` on every early-return path of
the C++ code.  Note the bone-index guard is `idx < 0 || idx > count`,
exactly as in the source. -/
def updateBoneAttachmentWrite (s : AttScene) (ba : BoneAttachment) : Option Transform :=
  match ba.parent_entity with
  | none => none
  | some model_instance =>
    if ¬ model_instance ∈ s.hasModelInstance then none
    else
      match lockPose s model_instance with
      | none => none
      | some parent_pose =>
        let parent_entity_transform := getTransform s model_instance
        let idx := ba.bone_index
        if idx < 0 ∨ idx > (parent_pose.count : Int) then none
        else
          let i := idx.toNat
          let original_scale := (getTransform s ba.entity).scale
          let bone_transform : LocalRigidTransform :=
            ⟨parent_pose.positions.getD i v3zero, parent_pose.rotations.getD i qid⟩
          let result :=
            (parent_entity_transform.mulLRT bone_transform).mulLRT ba.relative_transform
          some { result with scale := original_scale }

/-- `RenderSceneImpl::updateBoneAttachment`: apply the computed write (a
no-op when the write is `none`). -/
def updateBoneAttachment (s : AttScene) (ba : BoneAttachment) : AttScene :=
  match updateBoneAttachmentWrite s ba with
  | none => s
  | some t => setTransform s ba.entity t

/-- Concrete scene for the C4 boundary input: entity 1 carries a model
instance whose pose has exactly one bone; entity 2 is the attachment
child. -/
def c4Scene : AttScene :=
  ⟨[1],
   [(1, ⟨1, [⟨5, 0, 0⟩], [qid]⟩)],
   [(1, ⟨⟨1, 2, 3⟩, qid, 1⟩), (2, ⟨v3zero, qid, 1⟩)]⟩

/-- The C4 boundary attachment: `bone_index = 1` equals the parent pose's
bone count, i.e. it is out of range. -/
def c4Attachment : BoneAttachment :=
  ⟨2, some 1, 1, ⟨v3zero, qid⟩⟩

/-- C4 (code bug): the claim says an out-of-range bone index makes the
forward update a silent no-op, but the guard `idx < 0 || idx > count`
lets `bone_index == count` through: with a one-bone pose and
`bone_index = 1` the update still writes the child's transform (reading
the pose arrays past their end) instead of returning early. -/
theorem C4_bone_index_boundary_not_noop :
    (c4Attachment.bone_index ≥ ((lockPose c4Scene 1).getD ⟨0, [], []⟩).count)
    ∧ (updateBoneAttachmentWrite c4Scene c4Attachment).isSome = true := by
  constructor
  · decide
  · rfl

/-- C5: when the parent is valid, carries a model instance, its pose is
available and the bone index is in range, the forward update writes the
child's world transform equal to
`parent_entity_transform ∘ bone_local_transform ∘ cached_relative_transform`
with the child's original scale preserved, and reading the child's
transform back yields exactly that composition. -/
theorem C5_forward_update_composition (s : AttScene) (ba : BoneAttachment)
    (p : Nat) (pose : Pose)
    (hpar : ba.parent_entity = some p)
    (hmi : p ∈ s.hasModelInstance)
    (hpose : lockPose s p = some pose)
    (hlo : 0 ≤ ba.bone_index)
    (hhi : ba.bone_index < (pose.count : Int)) :
    getTransform (updateBoneAttachment s ba) ba.entity
      = { ((getTransform s p).mulLRT
            ⟨pose.positions.getD ba.bone_index.toNat v3zero,
             pose.rotations.getD ba.bone_index.toNat qid⟩).mulLRT
            ba.relative_transform with
          scale := (getTransform s ba.entity).scale } := by
  have hguard : ¬ (ba.bone_index < 0 ∨ ba.bone_index > (pose.count : Int)) := by
    push_neg
    exact ⟨hlo, le_of_lt hhi⟩
  have hwrite : updateBoneAttachmentWrite s ba
      = some { ((getTransform s p).mulLRT
                  ⟨pose.positions.getD ba.bone_index.toNat v3zero,
                   pose.rotations.getD ba.bone_index.toNat qid⟩).mulLRT
                  ba.relative_transform with
               scale := (getTransform s ba.entity).scale } := by
    rw [updateBoneAttachmentWrite, hpar]
    simp only [hmi, not_true_eq_false, if_false, hpose, if_neg hguard]
  rw [updateBoneAttachment, hwrite]
  simp only [setTransform, getTransform]
  rw [alookup_aset_self]
  rfl

/-- Witness for C5 on a concrete scene: parent entity 1 (one-bone pose),
child entity 2 with bone index 0. -/
theorem C5_forward_update_composition_witness :
    getTransform (updateBoneAttachment c4Scene ⟨2, some 1, 0, ⟨⟨1, 0, 0⟩, qid⟩⟩) 2
      = { ((getTransform c4Scene 1).mulLRT
            ⟨(⟨1, [⟨5, 0, 0⟩], [qid]⟩ : Pose).positions.getD (Int.toNat 0) v3zero,
             (⟨1, [⟨5, 0, 0⟩], [qid]⟩ : Pose).rotations.getD (Int.toNat 0) qid⟩).mulLRT
            (⟨⟨1, 0, 0⟩, qid⟩ : LocalRigidTransform) with
          scale := (getTransform c4Scene 2).scale } :=
  C5_forward_update_composition c4Scene ⟨2, some 1, 0, ⟨⟨1, 0, 0⟩, qid⟩⟩ 1
    ⟨1, [⟨5, 0, 0⟩], [qid]⟩ rfl (by decide) rfl (by decide) (by decide)

/-! ### Bone-attachment destruction and pose-unlock propagation (C10) -/

/-- The slice of `ModelInstance` relevant to pose-unlock propagation: the
`IS_BONE_ATTACHMENT_PARENT` flag. -/
structure MIFlagged where
  is_bone_attachment_parent : Bool
deriving Repr, DecidableEq

/-- Parent link of a bone attachment (`m_bone_attachments` entry). -/
structure BALink where
  entity : Nat
  parent_entity : Option Nat
deriving Repr, DecidableEq

/-- State touched by `destroyBoneAttachment` and `unlockPose`: the
model-instance table (dense, index = entity index) and the
bone-attachment table. -/
structure BAScene where
  instances : List MIFlagged
  attachments : List BALink
deriving Repr, DecidableEq

/-- `RenderSceneImpl::destroyBoneAttachment`: look the attachment up, and
if its parent is a valid entity within the model-instance table,
unconditionally unset that instance's `IS_BONE_ATTACHMENT_PARENT` flag;
then erase the attachment. -/
def destroyBoneAttachment (s : BAScene) (e : Nat) : BAScene :=
  match s.attachments.find? (fun a => a.entity == e) with
  | none => s
  | some ba =>
    let instances :=
      match ba.parent_entity with
      | some p =>
        if p < s.instances.length then
          s.instances.set p ⟨false⟩
        else s.instances
      | none => s.instances
    ⟨instances, s.attachments.filter (fun a => a.entity != e)⟩

/-- The attachments `RenderSceneImpl::unlockPose(entity, changed)` runs a
forward update on: none when `changed` is false, none when the entity is
inside the model-instance table and its `IS_BONE_ATTACHMENT_PARENT` flag
is clear, otherwise every attachment whose parent is `entity`. -/
def unlockPoseTargets (s : BAScene) (entity : Nat) (changed : Bool) : List Nat :=
  if ¬ changed then []
  else if entity < s.instances.length
          ∧ ¬ (s.instances.getD entity ⟨false⟩).is_bone_attachment_parent then []
  else (s.attachments.filter (fun a => a.parent_entity == some entity)).map (·.entity)

/-- C10: with two live attachments `a` and `b` sharing the same parent `p`
(inside the model-instance table, flagged as bone-attachment parent),
destroying `a` clears `p`'s `IS_BONE_ATTACHMENT_PARENT` flag even though
`b` still references `p`: before the destroy a pose unlock reaches `b`,
afterwards it reaches no attachment at all although `b` is still stored. -/
theorem C10_destroy_bone_attachment_clears_shared_parent_flag
    (s : BAScene) (a b : BALink) (p : Nat)
    (hfind : s.attachments.find? (fun x => x.entity == a.entity) = some a)
    (hb : b ∈ s.attachments)
    (hne : b.entity ≠ a.entity)
    (hpa : a.parent_entity = some p)
    (hpb : b.parent_entity = some p)
    (hp : p < s.instances.length)
    (hflag : (s.instances.getD p ⟨false⟩).is_bone_attachment_parent = true) :
    b.entity ∈ unlockPoseTargets s p true
    ∧ ((destroyBoneAttachment s a.entity).instances.getD p
        ⟨false⟩).is_bone_attachment_parent = false
    ∧ b ∈ (destroyBoneAttachment s a.entity).attachments
    ∧ unlockPoseTargets (destroyBoneAttachment s a.entity) p true = [] := by
  have hdestroy : destroyBoneAttachment s a.entity
      = ⟨s.instances.set p ⟨false⟩, s.attachments.filter (fun x => x.entity != a.entity)⟩ := by
    rw [destroyBoneAttachment, hfind]
    simp only [hpa, if_pos hp]
  have hplen : p < (s.instances.set p (⟨false⟩ : MIFlagged)).length := by
    rw [List.length_set]
    exact hp
  have hgetset : ((s.instances.set p (⟨false⟩ : MIFlagged)).getD p ⟨false⟩) = ⟨false⟩ := by
    rw [List.getD_eq_getElem _ _ hplen, List.getElem_set_self]
  refine ⟨?_, ?_, ?_, ?_⟩
  · -- before the destroy, the unlock reaches b
    rw [unlockPoseTargets]
    simp only [not_true_eq_false, if_false]
    rw [if_neg (by rw [hflag]; simp)]
    refine List.mem_map.mpr ⟨b, ?_, rfl⟩
    exact List.mem_filter.mpr ⟨hb, by rw [hpb]; simp⟩
  · rw [hdestroy]
    simp only
    rw [hgetset]
  · rw [hdestroy]
    simp only
    exact List.mem_filter.mpr ⟨hb, by simpa using hne⟩
  · rw [hdestroy, unlockPoseTargets]
    simp only [not_true_eq_false, if_false]
    rw [if_pos ⟨hplen, by rw [hgetset]; simp⟩]

/-- Witness for C10: entities 10 and 11 are attachments of parent 0; the
parent's flag is set; attachment 10 is destroyed. -/
theorem C10_destroy_bone_attachment_clears_shared_parent_flag_witness :
    (11 : Nat) ∈ unlockPoseTargets ⟨[⟨true⟩], [⟨10, some 0⟩, ⟨11, some 0⟩]⟩ 0 true
    ∧ (((destroyBoneAttachment ⟨[⟨true⟩], [⟨10, some 0⟩, ⟨11, some 0⟩]⟩ 10).instances.getD 0
        ⟨false⟩).is_bone_attachment_parent = false)
    ∧ (⟨11, some 0⟩ : BALink)
        ∈ (destroyBoneAttachment ⟨[⟨true⟩], [⟨10, some 0⟩, ⟨11, some 0⟩]⟩ 10).attachments
    ∧ unlockPoseTargets (destroyBoneAttachment ⟨[⟨true⟩], [⟨10, some 0⟩, ⟨11, some 0⟩]⟩ 10) 0 true
        = [] :=
  C10_destroy_bone_attachment_clears_shared_parent_flag
    ⟨[⟨true⟩], [⟨10, some 0⟩, ⟨11, some 0⟩]⟩ ⟨10, some 0⟩ ⟨11, some 0⟩ 0
    (by decide) (by decide) (by decide) rfl rfl (by decide) (by decide)

/-! ### Culling-system membership invariant (C2)

The enabled/ready/culling interplay of `enableModelInstance`,
`modelLoaded`/`modelUnloaded` (resource ready-state transitions),
`setModel` and `destroyModelInstance`. -/

/-- The slice of `ModelInstance` relevant to culling membership: the owning
entity (`INVALID_ENTITY` ↔ `none`; a live component stores its own index),
the model resource (id, nullable), and the `ENABLED` flag. -/
structure MI2 where
  entity : Option Nat
  model : Option Nat
  enabled : Bool
deriving Repr, DecidableEq

/-- A hole of the dense model-instance table. -/
def miHole : MI2 := ⟨none, none, false⟩

/-- Scene state for C2: the dense model-instance table (index = entity
index), the set of ready model resources (external resource state), and
the set of entities registered in the culling system. -/
structure CullScene where
  instances : List MI2
  readyModels : List Nat
  culling : List Nat
deriving Repr, DecidableEq

/-- `CullingSystem::add` guarded by `isAdded` (registration is
set-semantics). -/
def cullAdd (c : List Nat) (e : Nat) : List Nat :=
  if e ∈ c then c else e :: c

/-- `CullingSystem::remove`. -/
def cullRemove (c : List Nat) (e : Nat) : List Nat :=
  c.filter (fun x => x != e)

theorem mem_cullAdd (c : List Nat) (e j : Nat) :
    j ∈ cullAdd c e ↔ j ∈ c ∨ j = e := by
  rw [cullAdd]
  by_cases he : e ∈ c
  · rw [if_pos he]
    constructor
    · exact Or.inl
    · rintro (h | rfl)
      · exact h
      · exact he
  · rw [if_neg he]
    simp [or_comm]

theorem mem_cullRemove (c : List Nat) (e j : Nat) :
    j ∈ cullRemove c e ↔ j ∈ c ∧ j ≠ e := by
  rw [cullRemove]
  simp [List.mem_filter]

theorem getElemQ_set_ne {α : Type} (l : List α) (i j : Nat) (a : α) (hij : i ≠ j) :
    (l.set i a)[j]? = l[j]? := by
  by_cases hj : j < l.length
  · rw [List.getElem?_eq_getElem (by rwa [List.length_set]),
      List.getElem?_eq_getElem hj]
    exact congrArg some (List.getElem_set_ne hij _)
  · rw [List.getElem?_eq_none (by rw [List.length_set]; omega),
      List.getElem?_eq_none (by omega)]

theorem getElemQ_set_self {α : Type} (l : List α) (i : Nat) (a : α) (hi : i < l.length) :
    (l.set i a)[i]? = some a := by
  rw [List.getElem?_eq_getElem (by rwa [List.length_set]), List.getElem_set_self]

theorem set_oor {α : Type} (l : List α) (i : Nat) (a : α) (hi : l.length ≤ i) :
    l.set i a = l := by
  induction l generalizing i with
  | nil => rfl
  | cons hd tl ih =>
    cases i with
    | zero => simp at hi
    | succ i2 =>
      simp only [List.set]
      rw [ih i2 (by simpa using hi)]

/-- `model && model->isReady()`: the instance has a model and it is
ready. -/
def modelReadyB (s : CullScene) (mo : Option Nat) : Bool :=
  match mo with
  | none => false
  | some m => decide (m ∈ s.readyModels)

theorem modelReadyB_iff (s : CullScene) (mo : Option Nat) :
    modelReadyB s mo = true ↔ ∃ m, mo = some m ∧ m ∈ s.readyModels := by
  cases mo <;> simp [modelReadyB]

/-- `RenderSceneImpl::enableModelInstance`: store the flag; when enabling,
register in the culling system only if the model is assigned and ready
(`if (!model_instance.model || !model_instance.model->isReady()) return`);
when disabling, always remove. -/
def enableModelInstance (s : CullScene) (e : Nat) (enable : Bool) : CullScene :=
  let r := s.instances.getD e miHole
  let s2 := { s with instances := s.instances.set e { r with enabled := enable } }
  if enable then
    if modelReadyB s r.model then { s2 with culling := cullAdd s2.culling e } else s2
  else { s2 with culling := cullRemove s2.culling e }

/-- The condition under which the `modelLoaded(Model*)` broadcast
registers instance `i` in the culling system: a live instance using model
`m` whose `ENABLED` flag is set.  (The C++ broadcast walks the
model→entity intrusive list, whose members are exactly the live instances
with that model.) -/
def loadedCond (insts : List MI2) (m i : Nat) : Bool :=
  let r := insts.getD i miHole
  r.entity.isSome && (r.model == some m) && r.enabled

/-- The condition under which the `modelUnloaded(Model*)` broadcast
touches instance `i` (`entity != INVALID_ENTITY && model == model`). -/
def unloadedCond (insts : List MI2) (m i : Nat) : Bool :=
  let r := insts.getD i miHole
  r.entity.isSome && (r.model == some m)

def loadedStep (insts : List MI2) (m : Nat) (c : List Nat) (i : Nat) : List Nat :=
  if loadedCond insts m i then cullAdd c i else c

def unloadedStep (insts : List MI2) (m : Nat) (c : List Nat) (i : Nat) : List Nat :=
  if unloadedCond insts m i then cullRemove c i else c

/-- `modelLoaded(Model*)`: run the per-instance ready handler over every
dependent instance. -/
def broadcastLoaded (s : CullScene) (m : Nat) : CullScene :=
  { s with culling :=
      (List.range s.instances.length).foldl (loadedStep s.instances m) s.culling }

/-- `modelUnloaded(Model*)`: run the per-instance unready handler over
every dependent instance. -/
def broadcastUnloaded (s : CullScene) (m : Nat) : CullScene :=
  { s with culling :=
      (List.range s.instances.length).foldl (unloadedStep s.instances m) s.culling }

/-- `modelStateChanged`: the resource flips its ready state, then the
observer callback broadcasts `modelLoaded`/`modelUnloaded`. -/
def setModelReady (s : CullScene) (m : Nat) (ready : Bool) : CullScene :=
  if ready then
    broadcastLoaded
      { s with readyModels := if m ∈ s.readyModels then s.readyModels else m :: s.readyModels } m
  else
    broadcastUnloaded
      { s with readyModels := s.readyModels.filter (fun x => x != m) } m

/-- `RenderSceneImpl::setModel`: no-op (up to resource ref-counting) when
the model is unchanged and non-null; otherwise unregister from culling if
the old model was ready, install the new model, and if the new model is
already ready run the per-instance ready handler (which registers in
culling iff the `ENABLED` flag is set). -/
def setModel (s : CullScene) (e : Nat) (mnew : Option Nat) : CullScene :=
  let r := s.instances.getD e miHole
  if mnew = r.model ∧ r.model.isSome then s
  else
    let s1 :=
      match r.model with
      | some mo =>
        if mo ∈ s.readyModels then { s with culling := cullRemove s.culling e } else s
      | none => s
    let s2 := { s1 with instances := s1.instances.set e { r with model := mnew } }
    match mnew with
    | some mn =>
      if mn ∈ s2.readyModels then
        if r.enabled then { s2 with culling := cullAdd s2.culling e } else s2
      else s2
    | none => s2

/-- `RenderSceneImpl::destroyModelInstance`: `setModel(entity, nullptr)`
then mark the slot as a hole. -/
def destroyModelInstance (s : CullScene) (e : Nat) : CullScene :=
  let s1 := setModel s e none
  let r := s1.instances.getD e miHole
  { s1 with instances := s1.instances.set e { r with entity := none } }

/-- The C2 invariant: (a) the dense table stores each live component at
its own entity index and holes carry no model; (b) an entity is registered
in the culling system iff its instance is enabled and its model is
assigned and ready; (c) the culling system only contains table indices. -/
def CullINV (s : CullScene) : Prop :=
  (∀ (i : Nat) (r : MI2), s.instances[i]? = some r →
      r.entity = some i ∨ (r.entity = none ∧ r.model = none))
  ∧ (∀ (i : Nat) (r : MI2), s.instances[i]? = some r →
      (i ∈ s.culling ↔ (r.enabled = true ∧ ∃ m, r.model = some m ∧ m ∈ s.readyModels)))
  ∧ (∀ j, j ∈ s.culling → j < s.instances.length)

theorem mem_foldl_loaded (insts : List MI2) (m : Nat) (c : List Nat) (n j : Nat) :
    j ∈ (List.range n).foldl (loadedStep insts m) c
      ↔ j ∈ c ∨ (j < n ∧ loadedCond insts m j = true) := by
  induction n with
  | zero => simp
  | succ k ih =>
    rw [List.range_succ, List.foldl_append, List.foldl_cons, List.foldl_nil]
    by_cases hc : loadedCond insts m k = true
    · rw [loadedStep, if_pos hc, mem_cullAdd, ih]
      constructor
      · rintro ((h | ⟨h1, h2⟩) | rfl)
        · exact Or.inl h
        · exact Or.inr ⟨by omega, h2⟩
        · exact Or.inr ⟨by omega, hc⟩
      · rintro (h | ⟨h1, h2⟩)
        · exact Or.inl (Or.inl h)
        · by_cases hjk : j = k
          · exact Or.inr hjk
          · exact Or.inl (Or.inr ⟨by omega, h2⟩)
    · rw [loadedStep, if_neg hc, ih]
      constructor
      · rintro (h | ⟨h1, h2⟩)
        · exact Or.inl h
        · exact Or.inr ⟨by omega, h2⟩
      · rintro (h | ⟨h1, h2⟩)
        · exact Or.inl h
        · have hjk : j ≠ k := fun hh => hc (hh ▸ h2)
          exact Or.inr ⟨by omega, h2⟩

theorem mem_foldl_unloaded (insts : List MI2) (m : Nat) (c : List Nat) (n j : Nat) :
    j ∈ (List.range n).foldl (unloadedStep insts m) c
      ↔ j ∈ c ∧ ¬ (j < n ∧ unloadedCond insts m j = true) := by
  induction n with
  | zero => simp
  | succ k ih =>
    rw [List.range_succ, List.foldl_append, List.foldl_cons, List.foldl_nil]
    by_cases hc : unloadedCond insts m k = true
    · rw [unloadedStep, if_pos hc, mem_cullRemove, ih]
      constructor
      · rintro ⟨⟨h1, h2⟩, h3⟩
        refine ⟨h1, ?_⟩
        rintro ⟨h4, h5⟩
        by_cases hjk : j = k
        · exact h3 hjk
        · exact h2 ⟨by omega, h5⟩
      · rintro ⟨h1, h2⟩
        have hjk : j ≠ k := fun hh => h2 ⟨by omega, hh ▸ hc⟩
        refine ⟨⟨h1, ?_⟩, hjk⟩
        rintro ⟨h3, h4⟩
        exact h2 ⟨by omega, h4⟩
    · rw [unloadedStep, if_neg hc, ih]
      constructor
      · rintro ⟨h1, h2⟩
        refine ⟨h1, ?_⟩
        rintro ⟨h3, h4⟩
        by_cases hjk : j = k
        · exact hc (hjk ▸ h4)
        · exact h2 ⟨by omega, h4⟩
      · rintro ⟨h1, h2⟩
        refine ⟨h1, ?_⟩
        rintro ⟨h3, h4⟩
        exact h2 ⟨by omega, h4⟩

/-- Characterization of `enableModelInstance`: the stored flag is updated,
the ready set is untouched, and culling membership changes only at `e`. -/
theorem enableModelInstance_spec (s : CullScene) (e : Nat) (b : Bool) :
    (enableModelInstance s e b).instances
      = s.instances.set e { s.instances.getD e miHole with enabled := b }
    ∧ (enableModelInstance s e b).readyModels = s.readyModels
    ∧ ∀ j, j ∈ (enableModelInstance s e b).culling
        ↔ (if b then
            (j ∈ s.culling ∨ (j = e ∧
              modelReadyB s (s.instances.getD e miHole).model = true))
          else (j ∈ s.culling ∧ j ≠ e)) := by
  cases b
  · refine ⟨rfl, rfl, fun j => ?_⟩
    rw [if_neg Bool.false_ne_true]
    exact mem_cullRemove s.culling e j
  · cases hm : modelReadyB s (s.instances.getD e miHole).model
    · refine ⟨?_, ?_, fun j => ?_⟩
      · simp only [enableModelInstance, hm, Bool.false_eq_true, if_false, if_true]
      · simp only [enableModelInstance, hm, Bool.false_eq_true, if_false, if_true]
      · simp only [enableModelInstance, hm, Bool.false_eq_true, if_false, if_true]
        simp
    · refine ⟨?_, ?_, fun j => ?_⟩
      · simp only [enableModelInstance, hm, if_true]
      · simp only [enableModelInstance, hm, if_true]
      · simp only [enableModelInstance, hm, if_true]
        rw [mem_cullAdd]
        simp

theorem enableModelInstance_preserves (s : CullScene) (e : Nat) (b : Bool)
    (hinv : CullINV s) : CullINV (enableModelInstance s e b) := by
  obtain ⟨hA, hB, hC⟩ := hinv
  obtain ⟨hinsts, hready, hcull⟩ := enableModelInstance_spec s e b
  have hlength : (enableModelInstance s e b).instances.length = s.instances.length := by
    rw [hinsts, List.length_set]
  -- how slot lookups change
  have hlook : ∀ (i : Nat) (q : MI2), (enableModelInstance s e b).instances[i]? = some q →
      (i = e ∧ e < s.instances.length
        ∧ q = { s.instances.getD e miHole with enabled := b })
      ∨ (i ≠ e ∧ s.instances[i]? = some q) := by
    intro i q hq
    rw [hinsts] at hq
    by_cases hie : i = e
    · subst hie
      by_cases hlen : i < s.instances.length
      · rw [getElemQ_set_self _ _ _ hlen] at hq
        cases hq
        exact Or.inl ⟨rfl, hlen, rfl⟩
      · rw [set_oor _ _ _ (by omega)] at hq
        rw [List.getElem?_eq_none (by omega)] at hq
        cases hq
    · rw [getElemQ_set_ne _ _ _ _ (fun hh => hie hh.symm)] at hq
      exact Or.inr ⟨hie, hq⟩
  have hgetD : ∀ hlen : e < s.instances.length,
      s.instances[e]? = some (s.instances.getD e miHole) := by
    intro hlen
    rw [List.getD_eq_getElem _ _ hlen]
    exact List.getElem?_eq_getElem hlen
  refine ⟨?_, ?_, ?_⟩
  · intro i q hq
    rcases hlook i q hq with ⟨rfl, hlen, rfl⟩ | ⟨hie, hq2⟩
    · rcases hA i _ (hgetD hlen) with h | ⟨h1, h2⟩
      · exact Or.inl h
      · exact Or.inr ⟨h1, h2⟩
    · exact hA i q hq2
  · intro i q hq
    rw [hcull i, hready]
    rcases hlook i q hq with ⟨rfl, hlen, rfl⟩ | ⟨hie, hq2⟩
    · cases b
      · rw [if_neg Bool.false_ne_true]
        constructor
        · rintro ⟨h1, h2⟩
          exact absurd rfl h2
        · rintro ⟨h1, h2⟩
          cases h1
      · rw [if_pos rfl]
        constructor
        · rintro (h | ⟨_, hex⟩)
          · exact ⟨rfl, ((hB i _ (hgetD hlen)).mp h).2⟩
          · exact ⟨rfl, (modelReadyB_iff s _).mp hex⟩
        · rintro ⟨_, hex⟩
          exact Or.inr ⟨rfl, (modelReadyB_iff s _).mpr hex⟩
    · have hold := hB i q hq2
      cases b
      · rw [if_neg Bool.false_ne_true]
        constructor
        · rintro ⟨h1, h2⟩
          exact hold.mp h1
        · intro h
          exact ⟨hold.mpr h, hie⟩
      · rw [if_pos rfl]
        constructor
        · rintro (h | ⟨h1, _⟩)
          · exact hold.mp h
          · exact absurd h1 hie
        · intro h
          exact Or.inl (hold.mpr h)
  · intro j hj
    rw [hcull j] at hj
    rw [hlength]
    cases b
    · rw [if_neg Bool.false_ne_true] at hj
      exact hC j hj.1
    · rw [if_pos rfl] at hj
      rcases hj with h | ⟨rfl, hm⟩
      · exact hC j h
      · by_cases hlen : j < s.instances.length
        · exact hlen
        · rw [List.getD_eq_default _ _ (by omega)] at hm
          obtain ⟨m, hm2, _⟩ := (modelReadyB_iff s _).mp hm
          cases hm2

theorem getD_of_getElemQ {α : Type} (l : List α) (i : Nat) (d q : α)
    (h : l[i]? = some q) : l.getD i d = q := by
  have hi : i < l.length := by
    by_contra hge
    rw [List.getElem?_eq_none (by omega)] at h
    cases h
  rw [List.getD_eq_getElem _ _ hi]
  have := List.getElem?_eq_getElem (l := l) (n := i) hi
  rw [h] at this
  exact (Option.some_injective _ this).symm

theorem lt_of_getElemQ {α : Type} (l : List α) (i : Nat) (q : α)
    (h : l[i]? = some q) : i < l.length := by
  by_contra hge
  rw [List.getElem?_eq_none (by omega)] at h
  cases h

theorem setModelReady_preserves (s : CullScene) (m : Nat) (b : Bool)
    (hinv : CullINV s) : CullINV (setModelReady s m b) := by
  obtain ⟨hA, hB, hC⟩ := hinv
  cases b
  · -- ready → not ready: remove from the ready set, broadcast unload
    have hinsts : (setModelReady s m false).instances = s.instances := by
      simp only [setModelReady, Bool.false_eq_true, if_false, broadcastUnloaded]
    have hready : ∀ x, x ∈ (setModelReady s m false).readyModels
        ↔ x ∈ s.readyModels ∧ x ≠ m := by
      intro x
      simp only [setModelReady, Bool.false_eq_true, if_false, broadcastUnloaded]
      simp [List.mem_filter]
    have hcull : ∀ j, j ∈ (setModelReady s m false).culling
        ↔ j ∈ s.culling ∧ ¬ (j < s.instances.length ∧ unloadedCond s.instances m j = true) := by
      intro j
      simp only [setModelReady, Bool.false_eq_true, if_false, broadcastUnloaded]
      exact mem_foldl_unloaded _ _ _ _ _
    refine ⟨?_, ?_, ?_⟩
    · intro i q hq
      rw [hinsts] at hq
      exact hA i q hq
    · intro i q hq
      rw [hinsts] at hq
      have hi : i < s.instances.length := lt_of_getElemQ _ _ _ hq
      have hgd : s.instances.getD i miHole = q := getD_of_getElemQ _ _ _ _ hq
      rw [hcull i]
      constructor
      · rintro ⟨hmem, hnc⟩
        obtain ⟨hen, m2, hm2, hm2r⟩ := (hB i q hq).mp hmem
        refine ⟨hen, m2, hm2, (hready m2).mpr ⟨hm2r, ?_⟩⟩
        intro hm2m
        subst hm2m
        apply hnc
        refine ⟨hi, ?_⟩
        rw [unloadedCond, hgd]
        have hent : q.entity.isSome = true := by
          rcases hA i q hq with h | ⟨h1, h2⟩
          · rw [h]; rfl
          · rw [h2] at hm2; cases hm2
        simp [hent, hm2]
      · rintro ⟨hen, m2, hm2, hm2r⟩
        obtain ⟨hm2r0, hm2ne⟩ := (hready m2).mp hm2r
        refine ⟨(hB i q hq).mpr ⟨hen, m2, hm2, hm2r0⟩, ?_⟩
        rintro ⟨_, hcond⟩
        rw [unloadedCond, hgd] at hcond
        simp only [Bool.and_eq_true, beq_iff_eq] at hcond
        rw [hm2] at hcond
        exact hm2ne (Option.some_injective _ hcond.2)
    · intro j hj
      rw [hcull j] at hj
      rw [show (setModelReady s m false).instances.length = s.instances.length from by
        rw [hinsts]]
      exact hC j hj.1
  · -- not ready → ready: add to the ready set, broadcast load
    have hinsts : (setModelReady s m true).instances = s.instances := by
      simp only [setModelReady, if_true, broadcastLoaded]
    have hready : ∀ x, x ∈ (setModelReady s m true).readyModels
        ↔ x ∈ s.readyModels ∨ x = m := by
      intro x
      simp only [setModelReady, if_true, broadcastLoaded]
      by_cases hmem : m ∈ s.readyModels
      · rw [if_pos hmem]
        constructor
        · exact Or.inl
        · rintro (h | rfl)
          · exact h
          · exact hmem
      · rw [if_neg hmem]
        simp [or_comm]
    have hcull : ∀ j, j ∈ (setModelReady s m true).culling
        ↔ j ∈ s.culling ∨ (j < s.instances.length ∧ loadedCond s.instances m j = true) := by
      intro j
      simp only [setModelReady, if_true, broadcastLoaded]
      exact mem_foldl_loaded _ _ _ _ _
    refine ⟨?_, ?_, ?_⟩
    · intro i q hq
      rw [hinsts] at hq
      exact hA i q hq
    · intro i q hq
      rw [hinsts] at hq
      have hi : i < s.instances.length := lt_of_getElemQ _ _ _ hq
      have hgd : s.instances.getD i miHole = q := getD_of_getElemQ _ _ _ _ hq
      rw [hcull i]
      constructor
      · rintro (hmem | ⟨_, hcond⟩)
        · obtain ⟨hen, m2, hm2, hm2r⟩ := (hB i q hq).mp hmem
          exact ⟨hen, m2, hm2, (hready m2).mpr (Or.inl hm2r)⟩
        · rw [loadedCond, hgd] at hcond
          simp only [Bool.and_eq_true, beq_iff_eq] at hcond
          exact ⟨hcond.2, m, hcond.1.2, (hready m).mpr (Or.inr rfl)⟩
      · rintro ⟨hen, m2, hm2, hm2r⟩
        rcases (hready m2).mp hm2r with h | rfl
        · exact Or.inl ((hB i q hq).mpr ⟨hen, m2, hm2, h⟩)
        · refine Or.inr ⟨hi, ?_⟩
          rw [loadedCond, hgd]
          have hent : q.entity.isSome = true := by
            rcases hA i q hq with h | ⟨h1, h2⟩
            · rw [h]; rfl
            · rw [h2] at hm2; cases hm2
          simp [hent, hm2, hen]
    · intro j hj
      rw [hcull j] at hj
      rw [show (setModelReady s m true).instances.length = s.instances.length from by
        rw [hinsts]]
      rcases hj with h | ⟨h1, _⟩
      · exact hC j h
      · exact h1

/-- Characterization of `setModel` outside the unchanged-model early
return: the ready set is untouched, the slot's model is replaced, the
entity is removed from culling if the old model was ready and re-added iff
the new model is ready and the `ENABLED` flag is set. -/
theorem setModel_spec (s : CullScene) (e : Nat) (mnew : Option Nat)
    (hch : ¬ (mnew = (s.instances.getD e miHole).model
              ∧ (s.instances.getD e miHole).model.isSome = true)) :
    (setModel s e mnew).readyModels = s.readyModels
    ∧ (setModel s e mnew).instances
        = s.instances.set e { s.instances.getD e miHole with model := mnew }
    ∧ ∀ j, j ∈ (setModel s e mnew).culling ↔
        ((j ∈ s.culling
            ∧ (modelReadyB s (s.instances.getD e miHole).model = true → j ≠ e))
          ∨ (j = e ∧ modelReadyB s mnew = true
              ∧ (s.instances.getD e miHole).enabled = true)) := by
  simp only [setModel]
  rw [if_neg hch]
  rcases hm : (s.instances.getD e miHole).model with _ | mo
  · -- no old model: nothing to remove
    rcases mnew with _ | mn
    · dsimp only
      refine ⟨rfl, rfl, fun j => ?_⟩
      simp [modelReadyB]
    · dsimp only
      by_cases hrn : mn ∈ s.readyModels
      · rw [if_pos hrn]
        cases hen : (s.instances.getD e miHole).enabled
        · refine ⟨rfl, rfl, fun j => ?_⟩
          rw [if_neg Bool.false_ne_true]
          simp [modelReadyB]
        · refine ⟨rfl, rfl, fun j => ?_⟩
          rw [if_pos rfl, mem_cullAdd]
          simp [modelReadyB, hrn]
      · rw [if_neg hrn]
        refine ⟨rfl, rfl, fun j => ?_⟩
        simp [modelReadyB, hrn]
  · -- old model present
    dsimp only
    by_cases hro : mo ∈ s.readyModels
    · rw [if_pos hro]
      rcases mnew with _ | mn
      · dsimp only
        refine ⟨rfl, rfl, fun j => ?_⟩
        rw [mem_cullRemove]
        simp [modelReadyB, hro]
      · dsimp only
        by_cases hrn : mn ∈ s.readyModels
        · rw [if_pos hrn]
          cases hen : (s.instances.getD e miHole).enabled
          · refine ⟨rfl, rfl, fun j => ?_⟩
            rw [if_neg Bool.false_ne_true, mem_cullRemove]
            simp [modelReadyB, hro, hrn]
          · refine ⟨rfl, rfl, fun j => ?_⟩
            rw [if_pos rfl, mem_cullAdd, mem_cullRemove]
            simp [modelReadyB, hro, hrn]
        · rw [if_neg hrn]
          refine ⟨rfl, rfl, fun j => ?_⟩
          rw [mem_cullRemove]
          simp [modelReadyB, hro, hrn]
    · rw [if_neg hro]
      rcases mnew with _ | mn
      · dsimp only
        refine ⟨rfl, rfl, fun j => ?_⟩
        simp [modelReadyB, hro]
      · dsimp only
        by_cases hrn : mn ∈ s.readyModels
        · rw [if_pos hrn]
          cases hen : (s.instances.getD e miHole).enabled
          · refine ⟨rfl, rfl, fun j => ?_⟩
            rw [if_neg Bool.false_ne_true]
            simp [modelReadyB, hro, hrn]
          · refine ⟨rfl, rfl, fun j => ?_⟩
            rw [if_pos rfl, mem_cullAdd]
            simp [modelReadyB, hro, hrn]
        · rw [if_neg hrn]
          refine ⟨rfl, rfl, fun j => ?_⟩
          simp [modelReadyB, hro, hrn]

theorem setModel_preserves (s : CullScene) (e : Nat) (mnew : Option Nat) (q0 : MI2)
    (he : s.instances[e]? = some q0) (hent : q0.entity = some e)
    (hinv : CullINV s) : CullINV (setModel s e mnew) := by
  obtain ⟨hA, hB, hC⟩ := hinv
  have hel : e < s.instances.length := lt_of_getElemQ _ _ _ he
  have hgd : s.instances.getD e miHole = q0 := getD_of_getElemQ _ _ _ _ he
  by_cases hch : (mnew = (s.instances.getD e miHole).model
      ∧ (s.instances.getD e miHole).model.isSome = true)
  · -- unchanged model: the scene is untouched
    have : setModel s e mnew = s := by
      simp only [setModel]
      rw [if_pos hch]
    rw [this]
    exact ⟨hA, hB, hC⟩
  obtain ⟨hready, hinsts, hcull⟩ := setModel_spec s e mnew hch
  have hlook : ∀ (i : Nat) (q : MI2), (setModel s e mnew).instances[i]? = some q →
      (i = e ∧ q = { q0 with model := mnew }) ∨ (i ≠ e ∧ s.instances[i]? = some q) := by
    intro i q hq
    rw [hinsts, hgd] at hq
    by_cases hie : i = e
    · subst hie
      rw [getElemQ_set_self _ _ _ hel] at hq
      cases hq
      exact Or.inl ⟨rfl, rfl⟩
    · rw [getElemQ_set_ne _ _ _ _ (fun hh => hie hh.symm)] at hq
      exact Or.inr ⟨hie, hq⟩
  refine ⟨?_, ?_, ?_⟩
  · intro i q hq
    rcases hlook i q hq with ⟨rfl, rfl⟩ | ⟨hie, hq2⟩
    · exact Or.inl hent
    · exact hA i q hq2
  · intro i q hq
    rw [hcull i, hready]
    rcases hlook i q hq with ⟨rfl, rfl⟩ | ⟨hie, hq2⟩
    · rw [hgd]
      constructor
      · rintro (⟨hmem, himp⟩ | ⟨_, hrn, hen⟩)
        · -- still in culling: the old model must not have been ready…
          obtain ⟨hen0, m2, hm2, hm2r⟩ := (hB i q0 he).mp hmem
          exfalso
          apply himp _ rfl
          rw [modelReadyB_iff]
          exact ⟨m2, hm2, hm2r⟩
        · exact ⟨hen, (modelReadyB_iff s mnew).mp hrn⟩
      · rintro ⟨hen, m2, hm2, hm2r⟩
        refine Or.inr ⟨rfl, ?_, hen⟩
        rw [modelReadyB_iff]
        exact ⟨m2, hm2, hm2r⟩
    · have hold := hB i q hq2
      constructor
      · rintro (⟨hmem, _⟩ | ⟨hie2, _⟩)
        · exact hold.mp hmem
        · exact absurd hie2 hie
      · intro h
        exact Or.inl ⟨hold.mpr h, fun _ => hie⟩
  · intro j hj
    rw [hcull j] at hj
    rw [show (setModel s e mnew).instances.length = s.instances.length from by
      rw [hinsts, List.length_set]]
    rcases hj with ⟨h, _⟩ | ⟨rfl, _⟩
    · exact hC j h
    · exact hel

theorem destroyModelInstance_preserves (s : CullScene) (e : Nat) (q0 : MI2)
    (he : s.instances[e]? = some q0) (hent : q0.entity = some e)
    (hinv : CullINV s) : CullINV (destroyModelInstance s e) := by
  have hsm := setModel_preserves s e none q0 he hent hinv
  obtain ⟨hA, hB, hC⟩ := hsm
  have hel : e < (setModel s e none).instances.length := by
    have hch : ¬ ((none : Option Nat) = (s.instances.getD e miHole).model
        ∧ (s.instances.getD e miHole).model.isSome = true) := by
      rintro ⟨h1, h2⟩
      rw [← h1] at h2
      cases h2
    obtain ⟨_, hinsts, _⟩ := setModel_spec s e none hch
    rw [hinsts, List.length_set]
    exact lt_of_getElemQ _ _ _ he
  -- the slot after setModel(e, none)
  have hq1 : (setModel s e none).instances[e]?
      = some ((setModel s e none).instances.getD e miHole) := by
    rw [List.getD_eq_getElem _ _ hel]
    exact List.getElem?_eq_getElem hel
  set q1 := (setModel s e none).instances.getD e miHole with hq1def
  have hmodel1 : q1.model = none := by
    have hch : ¬ ((none : Option Nat) = (s.instances.getD e miHole).model
        ∧ (s.instances.getD e miHole).model.isSome = true) := by
      rintro ⟨h1, h2⟩
      rw [← h1] at h2
      cases h2
    obtain ⟨_, hinsts, _⟩ := setModel_spec s e none hch
    have hsome : (setModel s e none).instances[e]?
        = some { s.instances.getD e miHole with model := none } := by
      rw [hinsts]
      exact getElemQ_set_self _ _ _ (lt_of_getElemQ _ _ _ he)
    have heq : q1 = { s.instances.getD e miHole with model := none } :=
      Option.some_injective _ (hq1.symm.trans hsome)
    rw [heq]
  -- final state: slot e marked as hole
  have hlook : ∀ (i : Nat) (q : MI2), (destroyModelInstance s e).instances[i]? = some q →
      (i = e ∧ q = { q1 with entity := none })
      ∨ (i ≠ e ∧ (setModel s e none).instances[i]? = some q) := by
    intro i q hq
    simp only [destroyModelInstance] at hq
    by_cases hie : i = e
    · subst hie
      rw [getElemQ_set_self _ _ _ hel] at hq
      cases hq
      exact Or.inl ⟨rfl, rfl⟩
    · rw [getElemQ_set_ne _ _ _ _ (fun hh => hie hh.symm)] at hq
      exact Or.inr ⟨hie, hq⟩
  have hcull2 : (destroyModelInstance s e).culling = (setModel s e none).culling := rfl
  have hready2 : (destroyModelInstance s e).readyModels = (setModel s e none).readyModels := rfl
  refine ⟨?_, ?_, ?_⟩
  · intro i q hq
    rcases hlook i q hq with ⟨rfl, rfl⟩ | ⟨hie, hq2⟩
    · exact Or.inr ⟨rfl, hmodel1⟩
    · exact hA i q hq2
  · intro i q hq
    rw [hcull2, hready2]
    rcases hlook i q hq with ⟨rfl, rfl⟩ | ⟨hie, hq2⟩
    · have hold := hB i q1 hq1
      constructor
      · intro hmem
        obtain ⟨hen, m2, hm2, _⟩ := hold.mp hmem
        rw [hmodel1] at hm2
        cases hm2
      · rintro ⟨hen, m2, hm2, _⟩
        rw [show ({ q1 with entity := none } : MI2).model = q1.model from rfl, hmodel1] at hm2
        cases hm2
    · exact hB i q hq2
  · intro j hj
    rw [hcull2] at hj
    rw [show (destroyModelInstance s e).instances.length
        = (setModel s e none).instances.length from by
      simp only [destroyModelInstance]
      rw [List.length_set]]
    exact hC j hj

/-- C2: for every entity with a model instance whose model is ready, the
entity is in the culling system iff its `ENABLED` flag is set; and this
invariant (`CullINV`) is preserved by `enableModelInstance`, by model
ready/not-ready transitions, by `setModel` and by `destroyModelInstance`. -/
theorem C2_culling_membership_invariant (s : CullScene) (hinv : CullINV s) :
    (∀ (i : Nat) (r : MI2) (m : Nat), s.instances[i]? = some r → r.model = some m →
        m ∈ s.readyModels → (i ∈ s.culling ↔ r.enabled = true))
    ∧ (∀ (e : Nat) (b : Bool), CullINV (enableModelInstance s e b))
    ∧ (∀ (m : Nat) (b : Bool), CullINV (setModelReady s m b))
    ∧ (∀ (e : Nat) (q : MI2) (mnew : Option Nat), s.instances[e]? = some q →
        q.entity = some e → CullINV (setModel s e mnew))
    ∧ (∀ (e : Nat) (q : MI2), s.instances[e]? = some q → q.entity = some e →
        CullINV (destroyModelInstance s e)) := by
  refine ⟨?_, ?_, ?_, ?_, ?_⟩
  · intro i r m hq hm hready
    have hB := hinv.2.1 i r hq
    constructor
    · intro h
      exact (hB.mp h).1
    · intro h
      exact hB.mpr ⟨h, m, hm, hready⟩
  · intro e b
    exact enableModelInstance_preserves s e b hinv
  · intro m b
    exact setModelReady_preserves s m b hinv
  · intro e q mnew hq he
    exact setModel_preserves s e mnew q hq he hinv
  · intro e q hq he
    exact destroyModelInstance_preserves s e q hq he hinv

/-- A concrete one-instance scene satisfying `CullINV`: entity 0 uses the
ready model 5, is enabled, and is registered in the culling system. -/
def c2Scene : CullScene := ⟨[⟨some 0, some 5, true⟩], [5], [0]⟩

theorem c2Scene_inv : CullINV c2Scene := by
  refine ⟨?_, ?_, ?_⟩
  · intro i r h
    match i with
    | 0 =>
      simp only [c2Scene] at h
      cases h
      exact Or.inl rfl
    | n + 1 => simp [c2Scene] at h
  · intro i r h
    match i with
    | 0 =>
      simp only [c2Scene] at h
      cases h
      constructor
      · intro _
        exact ⟨rfl, 5, rfl, by simp [c2Scene]⟩
      · intro _
        simp [c2Scene]
    | n + 1 => simp [c2Scene] at h
  · intro j hj
    simp only [c2Scene, List.mem_singleton] at hj
    subst hj
    simp [c2Scene]

/-- Witness for C2 at the concrete scene `c2Scene` (its `CullINV`
hypothesis is discharged by `c2Scene_inv`). -/
theorem C2_culling_membership_invariant_witness :
    (∀ (i : Nat) (r : MI2) (m : Nat), c2Scene.instances[i]? = some r → r.model = some m →
        m ∈ c2Scene.readyModels → (i ∈ c2Scene.culling ↔ r.enabled = true))
    ∧ (∀ (e : Nat) (b : Bool), CullINV (enableModelInstance c2Scene e b))
    ∧ (∀ (m : Nat) (b : Bool), CullINV (setModelReady c2Scene m b))
    ∧ (∀ (e : Nat) (q : MI2) (mnew : Option Nat), c2Scene.instances[e]? = some q →
        q.entity = some e → CullINV (setModel c2Scene e mnew))
    ∧ (∀ (e : Nat) (q : MI2), c2Scene.instances[e]? = some q → q.entity = some e →
        CullINV (destroyModelInstance c2Scene e)) :=
  C2_culling_membership_invariant c2Scene c2Scene_inv

/-! ### Full-scene ray casting (C9)

`RenderSceneImpl::castRay`: a linear scan over the model-instance table
(bounding-sphere pre-tests, then the model's precise cast) followed by a
scan over all terrains, keeping the smallest-`t` hit.  The per-query
geometric quantities (`(pos - origin).length()`, the ray/sphere test, and
the result of `Model::castRay` / `Terrain::castRay`, whose mesh-level
geometry lives outside this scene module) are carried as per-instance
data of the query. -/

/-- Per-instance data of one `castRay` query. -/
structure RayInst where
  model : Option Nat
  enabled : Bool
  dist : ℚ
  radius : ℚ
  sphere : Bool
  castT : Option ℚ
deriving Repr, DecidableEq

/-- `RayCastModelHit` (hit case): parametric `t`, hit entity, component
type (terrain or model instance) and the mesh pointer (`none` = cleared). -/
structure RayHit where
  t : ℚ
  entity : Nat
  isTerrain : Bool
  mesh : Option Nat
deriving Repr, DecidableEq

/-- Scene state of one ray query. -/
structure RayScene where
  instances : List RayInst
  terrains : List (Nat × Option ℚ)
  dirLen : ℚ
deriving Repr, DecidableEq

/-- One iteration of the model-instance loop of `castRay`, mirroring the
skip-conditions of the source (the running state is the best hit so far
and `cur_dist`, which starts at `DBL_MAX`, modelled as `none`). -/
def castRayStep (dirLen : ℚ) (ignored : Option Nat)
    (st : Option RayHit × Option ℚ) (p : Nat × RayInst) :
    Option RayHit × Option ℚ :=
  let (i, r) := p
  if ignored = some i ∨ r.model = none then st
  else if r.enabled = false then st
  else if (match st.2 with
           | some cd => decide (r.dist - r.radius > cd)
           | none => false) then st
  else if r.sphere then
    match r.castT with
    | some t =>
      if (match st.1 with
          | none => true
          | some h => decide (t < h.t)) then
        (some ⟨t, i, false, some 0⟩, some (dirLen * t))
      else st
    | none => st
  else st

/-- One iteration of the terrain loop of `castRay`. -/
def terrainStep (best : Option RayHit) (p : Nat × Option ℚ) : Option RayHit :=
  match p.2 with
  | some t =>
    if (match best with
        | none => true
        | some h => decide (t < h.t)) then
      some ⟨t, p.1, true, none⟩
    else best
  | none => best

/-- `RenderSceneImpl::castRay` (`none` = `is_hit == false`). -/
def castRay (s : RayScene) (ignored : Option Nat) : Option RayHit :=
  let st := s.instances.enum.foldl (castRayStep s.dirLen ignored) (none, none)
  s.terrains.foldl terrainStep st.1

/-- A model-instance candidate of the query: a live, non-ignored, enabled
instance with an assigned model whose precise cast reports a hit. -/
def modelCandIn (l : List (Nat × RayInst)) (ignored : Option Nat) (i : Nat) (t : ℚ) : Prop :=
  ∃ r, (i, r) ∈ l ∧ ignored ≠ some i ∧ r.model ≠ none ∧ r.enabled = true ∧ r.castT = some t

/-- A terrain candidate of the query. -/
def terrCandIn (l : List (Nat × Option ℚ)) (e : Nat) (t : ℚ) : Prop :=
  (e, some t) ∈ l

/-- Invariant of the model-instance loop: either no candidate has been
seen and the state is pristine, or the state holds the minimum-`t`
candidate seen so far with `cur_dist` equal to its `t`. -/
def StInv (C : Nat → ℚ → Prop) (st : Option RayHit × Option ℚ) : Prop :=
  (st = (none, none) ∧ ∀ i t, ¬ C i t)
  ∨ (∃ h, st = (some h, some h.t) ∧ h.isTerrain = false ∧ h.mesh = some 0
      ∧ C h.entity h.t ∧ ∀ i t, C i t → h.t ≤ t)

theorem StInv_congr (C D : Nat → ℚ → Prop) (st : Option RayHit × Option ℚ)
    (hiff : ∀ i t, C i t ↔ D i t) (h : StInv C st) : StInv D st := by
  rcases h with ⟨h1, h2⟩ | ⟨h, h1, h2, h3, h4, h5⟩
  · exact Or.inl ⟨h1, fun i t hd => h2 i t ((hiff i t).mpr hd)⟩
  · exact Or.inr ⟨h, h1, h2, h3, (hiff _ _).mp h4, fun i t hd => h5 i t ((hiff i t).mpr hd)⟩

theorem castRayStep_spec (ignored : Option Nat) (i : Nat) (r : RayInst)
    (hbound : ∀ t, r.castT = some t → r.dist - r.radius ≤ t)
    (hsph : r.castT ≠ none → r.sphere = true)
    (st : Option RayHit × Option ℚ) (C : Nat → ℚ → Prop) (hst : StInv C st) :
    StInv (fun j t => C j t ∨ (j = i ∧ ignored ≠ some i ∧ r.model ≠ none
        ∧ r.enabled = true ∧ r.castT = some t))
      (castRayStep 1 ignored st (i, r)) := by
  by_cases hskip1 : ignored = some i ∨ r.model = none
  · have hstep : castRayStep 1 ignored st (i, r) = st := by
      rw [castRayStep]
      simp only [if_pos hskip1]
    rw [hstep]
    refine StInv_congr C _ st (fun j t => ?_) hst
    constructor
    · exact Or.inl
    · rintro (h | ⟨_, h1, h2, _, _⟩)
      · exact h
      · rcases hskip1 with h | h
        · exact absurd h h1
        · exact absurd h h2
  · by_cases hskip2 : r.enabled = false
    · have hstep : castRayStep 1 ignored st (i, r) = st := by
        rw [castRayStep]
        simp only [if_neg hskip1, if_pos hskip2]
      rw [hstep]
      refine StInv_congr C _ st (fun j t => ?_) hst
      constructor
      · exact Or.inl
      · rintro (h | ⟨_, _, _, h3, _⟩)
        · exact h
        · rw [hskip2] at h3
          cases h3
    · have hen : r.enabled = true := by
        cases he : r.enabled
        · exact absurd he hskip2
        · rfl
      have hignored : ignored ≠ some i := fun h => hskip1 (Or.inl h)
      have hmodel : r.model ≠ none := fun h => hskip1 (Or.inr h)
      rcases hst with ⟨hpair, hnone⟩ | ⟨h, hpair, hT, hM, hC, hmin⟩
      · -- no hit so far: cur_dist is DBL_MAX, no pruning
        subst hpair
        cases hsphere : r.sphere
        · -- sphere test fails ⇒ the precise cast cannot hit
          have hcast : r.castT = none := by
            by_contra hne
            rw [hsph hne] at hsphere
            cases hsphere
          have hstep : castRayStep 1 ignored ((none, none) : Option RayHit × Option ℚ) (i, r)
              = (none, none) := by
            rw [castRayStep]
            simp only [if_neg hskip1, if_neg hskip2, hsphere]
            rfl
          rw [hstep]
          refine Or.inl ⟨rfl, ?_⟩
          rintro j t (hc | ⟨_, _, _, _, h4⟩)
          · exact hnone j t hc
          · rw [hcast] at h4
            cases h4
        · cases hcast : r.castT with
          | none =>
            have hstep : castRayStep 1 ignored ((none, none) : Option RayHit × Option ℚ) (i, r)
                = (none, none) := by
              rw [castRayStep]
              simp only [if_neg hskip1, if_neg hskip2, hsphere, hcast]
              rfl
            rw [hstep]
            refine Or.inl ⟨rfl, ?_⟩
            rintro j t (hc | ⟨_, _, _, _, h4⟩)
            · exact hnone j t hc
            · cases h4
          | some t0 =>
            have hstep : castRayStep 1 ignored ((none, none) : Option RayHit × Option ℚ) (i, r)
                = (some ⟨t0, i, false, some 0⟩, some (1 * t0)) := by
              rw [castRayStep]
              simp only [if_neg hskip1, if_neg hskip2, hsphere, hcast]
              rfl
            rw [hstep]
            refine Or.inr ⟨⟨t0, i, false, some 0⟩, by rw [one_mul], rfl, rfl,
              Or.inr ⟨rfl, hignored, hmodel, hen, rfl⟩, ?_⟩
            rintro j t (hc | ⟨_, _, _, _, h4⟩)
            · exact absurd hc (hnone j t)
            · cases h4
              exact le_refl _
      · -- a best hit exists: cur_dist = best.t
        subst hpair
        by_cases hgt : r.dist - r.radius > h.t
        · -- pruned; any hit of this instance would be farther anyway
          have hstep : castRayStep 1 ignored
              ((some h, some h.t) : Option RayHit × Option ℚ) (i, r)
              = (some h, some h.t) := by
            rw [castRayStep]
            simp only [if_neg hskip1, if_neg hskip2, decide_eq_true_eq]
            rw [if_pos hgt]
          rw [hstep]
          refine Or.inr ⟨h, rfl, hT, hM, Or.inl hC, ?_⟩
          rintro j t (hc | ⟨_, _, _, _, h4⟩)
          · exact hmin j t hc
          · exact le_of_lt (lt_of_lt_of_le hgt (hbound t h4))
        · cases hsphere : r.sphere
          · have hcast : r.castT = none := by
              by_contra hne
              rw [hsph hne] at hsphere
              cases hsphere
            have hstep : castRayStep 1 ignored
                ((some h, some h.t) : Option RayHit × Option ℚ) (i, r)
                = (some h, some h.t) := by
              rw [castRayStep]
              simp only [if_neg hskip1, if_neg hskip2, decide_eq_true_eq]
              rw [if_neg hgt]
              simp only [hsphere]
              rfl
            rw [hstep]
            refine Or.inr ⟨h, rfl, hT, hM, Or.inl hC, ?_⟩
            rintro j t (hc | ⟨_, _, _, _, h4⟩)
            · exact hmin j t hc
            · rw [hcast] at h4
              cases h4
          · cases hcast : r.castT with
            | none =>
              have hstep : castRayStep 1 ignored
                  ((some h, some h.t) : Option RayHit × Option ℚ) (i, r)
                  = (some h, some h.t) := by
                rw [castRayStep]
                simp only [if_neg hskip1, if_neg hskip2, decide_eq_true_eq]
                rw [if_neg hgt]
                simp only [hsphere, hcast]
                rfl
              rw [hstep]
              refine Or.inr ⟨h, rfl, hT, hM, Or.inl hC, ?_⟩
              rintro j t (hc | ⟨_, _, _, _, h4⟩)
              · exact hmin j t hc
              · cases h4
            | some t0 =>
              by_cases hlt : t0 < h.t
              · have hstep : castRayStep 1 ignored
                    ((some h, some h.t) : Option RayHit × Option ℚ) (i, r)
                    = (some ⟨t0, i, false, some 0⟩, some (1 * t0)) := by
                  rw [castRayStep]
                  simp only [if_neg hskip1, if_neg hskip2, decide_eq_true_eq]
                  rw [if_neg hgt]
                  simp [hsphere, hcast, hlt]
                rw [hstep]
                refine Or.inr ⟨⟨t0, i, false, some 0⟩, by rw [one_mul], rfl, rfl,
                  Or.inr ⟨rfl, hignored, hmodel, hen, rfl⟩, ?_⟩
                rintro j t (hc | ⟨_, _, _, _, h4⟩)
                · exact le_of_lt (lt_of_lt_of_le hlt (hmin j t hc))
                · cases h4
                  exact le_refl _
              · have hstep : castRayStep 1 ignored
                    ((some h, some h.t) : Option RayHit × Option ℚ) (i, r)
                    = (some h, some h.t) := by
                  rw [castRayStep]
                  simp only [if_neg hskip1, if_neg hskip2, decide_eq_true_eq]
                  rw [if_neg hgt]
                  simp [hsphere, hcast, hlt]
                rw [hstep]
                refine Or.inr ⟨h, rfl, hT, hM, Or.inl hC, ?_⟩
                rintro j t (hc | ⟨_, _, _, _, h4⟩)
                · exact hmin j t hc
                · cases h4
                  exact le_of_not_lt hlt

theorem castRayLoop_spec (ignored : Option Nat) (l : List (Nat × RayInst))
    (hbound : ∀ p ∈ l, ∀ t, p.2.castT = some t → p.2.dist - p.2.radius ≤ t)
    (hsph : ∀ p ∈ l, p.2.castT ≠ none → p.2.sphere = true)
    (st : Option RayHit × Option ℚ) (C : Nat → ℚ → Prop) (hst : StInv C st) :
    StInv (fun i t => C i t ∨ modelCandIn l ignored i t)
      (l.foldl (castRayStep 1 ignored) st) := by
  induction l generalizing st C with
  | nil =>
    rw [List.foldl_nil]
    refine StInv_congr C _ st (fun i t => ?_) hst
    constructor
    · exact Or.inl
    · rintro (h | ⟨r, hr, _⟩)
      · exact h
      · cases hr
  | cons p l ih =>
    obtain ⟨i, r⟩ := p
    rw [List.foldl_cons]
    have hbl : ∀ q ∈ l, ∀ t, q.2.castT = some t → q.2.dist - q.2.radius ≤ t :=
      fun q hq => hbound q (List.mem_cons_of_mem _ hq)
    have hsl : ∀ q ∈ l, q.2.castT ≠ none → q.2.sphere = true :=
      fun q hq => hsph q (List.mem_cons_of_mem _ hq)
    have hcand_head : ∀ j t, modelCandIn ((i, r) :: l) ignored j t
        ↔ ((j = i ∧ ignored ≠ some i ∧ r.model ≠ none ∧ r.enabled = true ∧ r.castT = some t)
           ∨ modelCandIn l ignored j t) := by
      intro j t
      constructor
      · rintro ⟨q, hq, h1, h2, h3, h4⟩
        rcases List.mem_cons.mp hq with heq | hmem
        · cases heq
          exact Or.inl ⟨rfl, h1, h2, h3, h4⟩
        · exact Or.inr ⟨q, hmem, h1, h2, h3, h4⟩
      · rintro (⟨rfl, h1, h2, h3, h4⟩ | ⟨q, hmem, h1, h2, h3, h4⟩)
        · exact ⟨r, List.mem_cons_self _ _, h1, h2, h3, h4⟩
        · exact ⟨q, List.mem_cons_of_mem _ hmem, h1, h2, h3, h4⟩
    have hmain := castRayStep_spec ignored i r
      (hbound (i, r) (List.mem_cons_self _ _))
      (hsph (i, r) (List.mem_cons_self _ _)) st C hst
    have := ih hbl hsl _ _ hmain
    refine StInv_congr _ _ _ (fun j t => ?_) this
    rw [hcand_head]
    tauto

/-- Invariant of the final result: either no candidate at all, or the
minimum-`t` candidate across both categories, with a terrain hit's mesh
pointer cleared. -/
def ResInv (MC TC : Nat → ℚ → Prop) (res : Option RayHit) : Prop :=
  (res = none ∧ (∀ i t, ¬ MC i t) ∧ (∀ e t, ¬ TC e t))
  ∨ (∃ h, res = some h
      ∧ ((h.isTerrain = false ∧ h.mesh = some 0 ∧ MC h.entity h.t)
         ∨ (h.isTerrain = true ∧ h.mesh = none ∧ TC h.entity h.t))
      ∧ (∀ i t, MC i t → h.t ≤ t) ∧ (∀ e t, TC e t → h.t ≤ t))

theorem ResInv_congr (MC TC TD : Nat → ℚ → Prop) (res : Option RayHit)
    (hiff : ∀ e t, TC e t ↔ TD e t) (h : ResInv MC TC res) : ResInv MC TD res := by
  rcases h with ⟨h1, h2, h3⟩ | ⟨h, h1, h2, h3, h4⟩
  · exact Or.inl ⟨h1, h2, fun e t hd => h3 e t ((hiff e t).mpr hd)⟩
  · refine Or.inr ⟨h, h1, ?_, h3, fun e t hd => h4 e t ((hiff e t).mpr hd)⟩
    rcases h2 with ⟨a, b, c⟩ | ⟨a, b, c⟩
    · exact Or.inl ⟨a, b, c⟩
    · exact Or.inr ⟨a, b, (hiff _ _).mp c⟩

theorem terrainStep_spec (e0 : Nat) (c0 : Option ℚ) (b : Option RayHit)
    (MC TC : Nat → ℚ → Prop) (hb : ResInv MC TC b) :
    ResInv MC (fun e t => TC e t ∨ (e = e0 ∧ c0 = some t)) (terrainStep b (e0, c0)) := by
  cases hc : c0 with
  | none =>
    have hstep : terrainStep b (e0, none) = b := by
      rw [terrainStep]
    rw [hstep]
    refine ResInv_congr MC TC _ b (fun e t => ?_) hb
    constructor
    · exact Or.inl
    · rintro (h | ⟨_, h2⟩)
      · exact h
      · cases h2
  | some t0 =>
    rcases hb with ⟨hpair, hM, hT⟩ | ⟨h, hpair, htag, hmM, hmT⟩
    · subst hpair
      have hstep : terrainStep none (e0, some t0) = some ⟨t0, e0, true, none⟩ := by
        rw [terrainStep]
        simp
      rw [hstep]
      refine Or.inr ⟨⟨t0, e0, true, none⟩, rfl, Or.inr ⟨rfl, rfl, Or.inr ⟨rfl, rfl⟩⟩, ?_, ?_⟩
      · intro i t hmc
        exact absurd hmc (hM i t)
      · rintro e t (htc | ⟨_, hct⟩)
        · exact absurd htc (hT e t)
        · cases hct
          exact le_refl _
    · subst hpair
      by_cases hlt : t0 < h.t
      · have hstep : terrainStep (some h) (e0, some t0) = some ⟨t0, e0, true, none⟩ := by
          rw [terrainStep]
          simp only [decide_eq_true_eq]
          rw [if_pos hlt]
        rw [hstep]
        refine Or.inr ⟨⟨t0, e0, true, none⟩, rfl, Or.inr ⟨rfl, rfl, Or.inr ⟨rfl, rfl⟩⟩, ?_, ?_⟩
        · intro i t hmc
          exact le_of_lt (lt_of_lt_of_le hlt (hmM i t hmc))
        · rintro e t (htc | ⟨_, hct⟩)
          · exact le_of_lt (lt_of_lt_of_le hlt (hmT e t htc))
          · cases hct
            exact le_refl _
      · have hstep : terrainStep (some h) (e0, some t0) = some h := by
          rw [terrainStep]
          simp only [decide_eq_true_eq]
          rw [if_neg hlt]
        rw [hstep]
        refine Or.inr ⟨h, rfl, ?_, hmM, ?_⟩
        · rcases htag with ⟨a, b1, c⟩ | ⟨a, b1, c⟩
          · exact Or.inl ⟨a, b1, c⟩
          · exact Or.inr ⟨a, b1, Or.inl c⟩
        · rintro e t (htc | ⟨_, hct⟩)
          · exact hmT e t htc
          · cases hct
            exact le_of_not_lt hlt

theorem terrainLoop_spec (l : List (Nat × Option ℚ)) (b : Option RayHit)
    (MC TC : Nat → ℚ → Prop) (hb : ResInv MC TC b) :
    ResInv MC (fun e t => TC e t ∨ terrCandIn l e t) (l.foldl terrainStep b) := by
  induction l generalizing b TC with
  | nil =>
    rw [List.foldl_nil]
    refine ResInv_congr MC TC _ b (fun e t => ?_) hb
    constructor
    · exact Or.inl
    · rintro (h | h)
      · exact h
      · cases h
  | cons p l ih =>
    obtain ⟨e0, c0⟩ := p
    rw [List.foldl_cons]
    have hhead : ∀ e t, terrCandIn ((e0, c0) :: l) e t
        ↔ ((e = e0 ∧ c0 = some t) ∨ terrCandIn l e t) := by
      intro e t
      constructor
      · intro h
        rcases List.mem_cons.mp h with heq | hmem
        · cases heq
          exact Or.inl ⟨rfl, rfl⟩
        · exact Or.inr hmem
      · rintro (⟨rfl, rfl⟩ | hmem)
        · exact List.mem_cons_self _ _
        · exact List.mem_cons_of_mem _ hmem
    have hmain := terrainStep_spec e0 c0 b MC TC hb
    have := ih _ _ hmain
    refine ResInv_congr MC _ _ _ (fun e t => ?_) this
    rw [hhead]
    tauto

/-- C9: `castRay` returns the smallest-`t` hit across the enabled,
non-ignored model instances with an assigned model (bounding-sphere
pre-test, then the model's precise cast) and all terrains; a returned
terrain hit has its mesh pointer cleared, and a returned model hit always
names an enabled, non-ignored instance with a model.  The hypotheses state
the geometric facts the pre-tests rely on: the ray direction is
normalized, a precise hit lies no closer than `dist − radius`, and the
sphere pre-test succeeds whenever the precise cast hits. -/
theorem C9_cast_ray_closest (s : RayScene) (ignored : Option Nat)
    (hdir : s.dirLen = 1)
    (hbound : ∀ p ∈ s.instances.enum, ∀ t, p.2.castT = some t → p.2.dist - p.2.radius ≤ t)
    (hsph : ∀ p ∈ s.instances.enum, p.2.castT ≠ none → p.2.sphere = true) :
    (castRay s ignored = none ↔
      ((∀ i t, ¬ modelCandIn s.instances.enum ignored i t)
        ∧ (∀ e t, ¬ terrCandIn s.terrains e t)))
    ∧ (∀ h, castRay s ignored = some h →
        ((∀ i t, modelCandIn s.instances.enum ignored i t → h.t ≤ t)
          ∧ (∀ e t, terrCandIn s.terrains e t → h.t ≤ t)
          ∧ (h.isTerrain = true → h.mesh = none ∧ terrCandIn s.terrains h.entity h.t)
          ∧ (h.isTerrain = false →
              modelCandIn s.instances.enum ignored h.entity h.t))) := by
  have hstart : StInv (fun _ _ => False) ((none, none) : Option RayHit × Option ℚ) :=
    Or.inl ⟨rfl, fun i t h => h⟩
  have hphase1 := castRayLoop_spec ignored s.instances.enum hbound hsph (none, none)
    (fun _ _ => False) hstart
  have hres : ResInv (modelCandIn s.instances.enum ignored)
      (fun e t => terrCandIn s.terrains e t) (castRay s ignored) := by
    have hbridge : ResInv (modelCandIn s.instances.enum ignored) (fun _ _ => False)
        (s.instances.enum.foldl (castRayStep s.dirLen ignored) (none, none)).1 := by
      rw [hdir]
      rcases hphase1 with ⟨hpair, hnone⟩ | ⟨h, hpair, hT, hM, hC, hmin⟩
      · rw [hpair]
        refine Or.inl ⟨rfl, fun i t hc => hnone i t (Or.inr hc), fun e t h => h⟩
      · rw [hpair]
        refine Or.inr ⟨h, rfl, Or.inl ⟨hT, hM, ?_⟩, ?_, fun e t hf => absurd hf (fun x => x)⟩
        · rcases hC with hf | hc
          · cases hf
          · exact hc
        · intro i t hc
          exact hmin i t (Or.inr hc)
    have := terrainLoop_spec s.terrains _ _ _ hbridge
    refine ResInv_congr _ _ _ _ (fun e t => ?_) this
    simp
  constructor
  · constructor
    · intro hnone
      rcases hres with ⟨_, hM, hT⟩ | ⟨h, hpair, _⟩
      · exact ⟨hM, hT⟩
      · rw [hnone] at hpair
        cases hpair
    · rintro ⟨hM, hT⟩
      rcases hres with ⟨hn, _⟩ | ⟨h, hpair, htag, _⟩
      · exact hn
      · exfalso
        rcases htag with ⟨_, _, hc⟩ | ⟨_, _, hc⟩
        · exact hM _ _ hc
        · exact hT _ _ hc
  · intro h hsome
    rcases hres with ⟨hn, _⟩ | ⟨h2, hpair, htag, hmM, hmT⟩
    · rw [hsome] at hn
      cases hn
    · rw [hsome] at hpair
      cases hpair
      refine ⟨hmM, hmT, ?_, ?_⟩
      · intro hT
        rcases htag with ⟨hf, _, _⟩ | ⟨_, hm, hc⟩
        · rw [hT] at hf
          cases hf
        · exact ⟨hm, hc⟩
      · intro hF
        rcases htag with ⟨_, _, hc⟩ | ⟨ht, _, _⟩
        · exact hc
        · rw [hF] at ht
          cases ht

/-- Witness for C9: one enabled instance (model 1, precise hit `t = 5`)
and one terrain hitting at `t = 4`; the geometric hypotheses are
discharged numerically. -/
theorem C9_cast_ray_closest_witness :
    (castRay ⟨[⟨some 1, true, 3, 1, true, some 5⟩], [(7, some 4)], 1⟩ none = none ↔
      ((∀ i t, ¬ modelCandIn ([⟨some 1, true, 3, 1, true, some 5⟩] : List RayInst).enum none i t)
        ∧ (∀ e t, ¬ terrCandIn [(7, some 4)] e t)))
    ∧ (∀ h, castRay ⟨[⟨some 1, true, 3, 1, true, some 5⟩], [(7, some 4)], 1⟩ none = some h →
        ((∀ i t, modelCandIn ([⟨some 1, true, 3, 1, true, some 5⟩] : List RayInst).enum none i t
            → h.t ≤ t)
          ∧ (∀ e t, terrCandIn [(7, some 4)] e t → h.t ≤ t)
          ∧ (h.isTerrain = true → h.mesh = none ∧ terrCandIn [(7, some 4)] h.entity h.t)
          ∧ (h.isTerrain = false →
              modelCandIn ([⟨some 1, true, 3, 1, true, some 5⟩] : List RayInst).enum none
                h.entity h.t))) :=
  C9_cast_ray_closest ⟨[⟨some 1, true, 3, 1, true, some 5⟩], [(7, some 4)], 1⟩ none rfl
    (by
      intro p hp t ht
      simp only [List.enum, List.enumFrom, List.mem_singleton] at hp
      subst hp
      simp only at ht
      cases ht
      norm_num)
    (by
      intro p hp _
      simp only [List.enum, List.enumFrom, List.mem_singleton] at hp
      subst hp
      rfl)

/-! ### Visible-mesh-instance construction (C8)

`RenderSceneImpl::getModelInstanceInfos`: cull, process each result bucket
(one parallel job per bucket, reading only shared state and writing its
own buffer), then merge the per-bucket buffers into one contiguous array
in bucket order. -/

/-- The per-mesh data the worker reads: render-layer mask and the
material's ready state. -/
structure C8Mesh where
  layer_mask : Nat
  material_ready : Bool
deriving Repr, DecidableEq

def defC8Mesh : C8Mesh := ⟨0, false⟩

/-- Per-model data: `Model::getLODMeshIndices` (modelled from the spec:
the model maps a scaled squared distance to an inclusive mesh-index
range; its implementation lives in `model.cpp`, outside the sources) and
the instance's mesh table. -/
structure C8Model where
  lod : ℚ → Nat × Nat
  meshes : List C8Mesh

def defC8Model : C8Model := ⟨fun _ => (1, 0), []⟩

/-- The per-instance data the worker reads. -/
structure C8Inst where
  pos : V3
  model : C8Model

def defC8Inst : C8Inst := ⟨v3zero, defC8Model⟩

/-- One output record (`MeshInstance`): owning entity, mesh index within
the instance's mesh table, and the scaled squared distance stored as
`depth`. -/
structure MeshInstance where
  owner : Nat
  meshIndex : Nat
  depth : ℚ
deriving Repr, DecidableEq

/-- Scene state for C8: the model-instance table (index = entity index)
and the global LOD multiplier `m_lod_multiplier`. -/
structure C8Scene where
  instances : List C8Inst
  globalLod : ℚ

/-- `(universe.getPosition(e) - ref_point).squaredLength()`. -/
def sqDist (a b : V3) : ℚ :=
  (a.x - b.x) * (a.x - b.x) + (a.y - b.y) * (a.y - b.y) + (a.z - b.z) * (a.z - b.z)

/-- The inclusive index range `lod.from .. lod.to` as a list. -/
def lodRange (f t : Nat) : List Nat :=
  (List.range (t + 1 - f)).map (· + f)

/-- The records one culled candidate entity contributes, in mesh order:
for each mesh index in the LOD range, skip it if its layer mask misses
the query mask, emit it if its material is ready. -/
def processEntity (s : C8Scene) (refPoint : V3) (finalLod : ℚ) (layerMask : Nat)
    (e : Nat) : List MeshInstance :=
  let inst := s.instances.getD e defC8Inst
  let sq := sqDist inst.pos refPoint * finalLod
  let ft := inst.model.lod sq
  (lodRange ft.1 ft.2).filterMap (fun j =>
    let mesh := inst.model.meshes.getD j defC8Mesh
    if Nat.land mesh.layer_mask layerMask = 0 then none
    else if mesh.material_ready then some ⟨e, j, sq⟩ else none)

/-- `RenderSceneImpl::getModelInstanceInfos`: early-out on an empty cull
result, process each bucket (candidate-iteration order), then copy the
per-bucket buffers into the result one after another. -/
def getModelInstanceInfos (s : C8Scene) (cullResults : List (List Nat))
    (lodRef : V3) (lodMul : ℚ) (layerMask : Nat) : List MeshInstance :=
  if cullResults.isEmpty then []
  else
    let finalLod := s.globalLod * lodMul
    let tmp := cullResults.map
      (fun bucket => (bucket.map (processEntity s lodRef finalLod layerMask)).join)
    tmp.foldl (fun acc sub => acc ++ sub) []

/-- The claim's wording of the output: the concatenation, in bucket order,
of per-bucket lists; within a bucket the candidate-iteration order; per
candidate one record for every mesh index in the LOD range selected by the
scaled squared distance whose layer mask intersects the query mask and
whose material is ready. -/
def c8SpecRecords (s : C8Scene) (cullResults : List (List Nat))
    (lodRef : V3) (lodMul : ℚ) (layerMask : Nat) : List MeshInstance :=
  (cullResults.map (fun bucket =>
    (bucket.map (fun e =>
      let inst := s.instances.getD e defC8Inst
      let sq := sqDist inst.pos lodRef * (s.globalLod * lodMul)
      let ft := inst.model.lod sq
      ((lodRange ft.1 ft.2).filter (fun j =>
          let mesh := inst.model.meshes.getD j defC8Mesh
          decide (Nat.land mesh.layer_mask layerMask ≠ 0) && mesh.material_ready)).map
        (fun j => ⟨e, j, sq⟩))).join)).join

theorem foldl_append_eq_join {α : Type} (l : List (List α)) (acc : List α) :
    l.foldl (fun a b => a ++ b) acc = acc ++ l.join := by
  induction l generalizing acc with
  | nil => simp
  | cons hd tl ih =>
    rw [List.foldl_cons, ih]
    simp [List.append_assoc]

theorem emit_filterMap_eq {α : Type} (l : List Nat) (p : Nat → Prop) [DecidablePred p]
    (ready : Nat → Bool) (g : Nat → α) :
    l.filterMap (fun j => if p j then none else if ready j then some (g j) else none)
      = (l.filter (fun j => decide (¬ p j) && ready j)).map g := by
  induction l with
  | nil => rfl
  | cons a l ih =>
    simp only [List.filterMap_cons, List.filter_cons]
    by_cases hp : p a
    · simp [hp, ih]
    · cases hr : ready a
      · simp [hp, hr, ih]
      · simp [hp, hr, ih]

/-- C8: the visible-mesh-instance builder produces exactly the records the
spec describes — concatenated per-bucket outputs in bucket order, with
within-bucket order equal to candidate order, one record per mesh of the
distance-selected LOD range whose layer mask intersects the query mask
and whose material is ready. -/
theorem C8_visible_mesh_infos (s : C8Scene) (cullResults : List (List Nat))
    (lodRef : V3) (lodMul : ℚ) (layerMask : Nat) :
    getModelInstanceInfos s cullResults lodRef lodMul layerMask
      = c8SpecRecords s cullResults lodRef lodMul layerMask := by
  rw [getModelInstanceInfos, c8SpecRecords]
  by_cases hemp : cullResults.isEmpty
  · rw [if_pos hemp]
    rw [List.isEmpty_iff.mp hemp]
    rfl
  · rw [if_neg hemp]
    rw [foldl_append_eq_join, List.nil_append]
    congr 1
    apply List.map_congr_left
    intro bucket _
    congr 1
    apply List.map_congr_left
    intro e _
    simp only [processEntity]
    exact emit_filterMap_eq _ _ _ _

/-! ### Whole-scene binary serialization (C7, C1)

The `OutputBlob` stream is modelled at byte level (`List Nat`,
little-endian).  Machine values are carried as raw bit patterns: a float
is its 4 raw bytes, `EntityRef`/`EntityPtr` their 4-byte index
(`INVALID_ENTITY` = `0xFFFFFFFF`).  Raw-struct writes
(`serializer.write(point_light)`) and element payloads whose writers live
outside the sources (`Terrain::serialize(OutputBlob&)`,
`ParticleEmitter::serialize`, `OutputBlob::write(const string&)`) are
carried as opaque byte lists. -/

/-- `k` little-endian bytes of `n` (values ≥ 2^(8k) wrap, as in a raw
memory copy). -/
def le (k n : Nat) : List Nat :=
  match k with
  | 0 => []
  | k + 1 => n % 256 :: le k (n / 256)

/-- Read `k` little-endian bytes. -/
def rdN (k : Nat) (bs : List Nat) : Option (Nat × List Nat) :=
  match k with
  | 0 => some (0, bs)
  | k + 1 =>
    match bs with
    | [] => none
    | b :: r =>
      match rdN k r with
      | some (v, rest) => some (b + 256 * v, rest)
      | none => none

/-- Modelled from the spec: `OutputBlob::writeString` (blob.cpp is not in
the sources) emits the string's bytes followed by a terminator. -/
def wStr (s : List Nat) : List Nat := s ++ [0]

def invalidEntity : Nat := 4294967295

/-- Persisted camera fields, in the order `serializeCameras` writes them. -/
structure SCam where
  entity : Nat
  far : Nat
  fov : Nat
  is_ortho : Nat
  ortho_size : Nat
  near : Nat
deriving Repr, DecidableEq

/-- One `m_model_instances` table entry as seen by
`serializeModelInstances`: the raw entity index (`invalidEntity` marks a
sparse hole), the persistent-masked flags byte, the model path hash (0
when no model), and the custom-material block (`has_changed_materials`
with the material path strings). -/
structure SMI where
  entity : Nat
  flags : Nat
  path : Nat
  hasChangedMaterials : Bool
  materials : List (List Nat)
deriving Repr, DecidableEq

structure SBoneAtt where
  bone_index : Nat
  entity : Nat
  parent : Nat
  rel : List Nat
deriving Repr, DecidableEq

/-- Persisted environment-probe fields (raw bit patterns). -/
structure SProbe where
  entity : Nat
  radius : Nat
  guid : Nat
  flags : Nat
  radiance_size : Nat
  irradiance_size : Nat
  reflection_size : Nat
deriving Repr, DecidableEq

structure SDecal where
  entity : Nat
  scale : List Nat
  material : List Nat
deriving Repr, DecidableEq

structure STextMesh where
  entity : Nat
  font : List Nat
  color : Nat
  font_size : Nat
  text : List Nat
deriving Repr, DecidableEq

/-- The scene state `RenderSceneImpl::serialize` reads. -/
structure SerScene where
  cameras : List SCam
  model_instances : List SMI
  point_lights : List (List Nat)
  global_lights : List (List Nat)
  active_global_light : Nat
  terrains : List (List Nat)
  particle_emitters : List (List Nat)
  bone_attachments : List SBoneAtt
  probes : List SProbe
  decals : List SDecal
  text_meshes : List STextMesh
deriving Repr, DecidableEq

def camRecord (c : SCam) : List Nat :=
  le 4 c.entity ++ le 4 c.far ++ le 4 c.fov ++ le 1 c.is_ortho
    ++ le 4 c.ortho_size ++ le 4 c.near

/-- The bytes of one model-instance record after the entity field. -/
def miRest (r : SMI) : List Nat :=
  le 1 r.flags
    ++ (if r.entity ≠ invalidEntity then
          le 4 r.path
            ++ le 4 (if r.hasChangedMaterials then r.materials.length else 0)
            ++ (if r.hasChangedMaterials then (r.materials.map wStr).join else [])
        else [])

def miRecord (r : SMI) : List Nat := le 4 r.entity ++ miRest r

def baRecord (a : SBoneAtt) : List Nat :=
  le 4 a.bone_index ++ le 4 a.entity ++ le 4 a.parent ++ a.rel

def probeRecord (p : SProbe) : List Nat :=
  le 4 p.entity ++ le 4 p.radius ++ le 8 p.guid ++ le 4 p.flags
    ++ le 2 p.radiance_size ++ le 2 p.irradiance_size ++ le 2 p.reflection_size

def decalRecord (d : SDecal) : List Nat :=
  le 4 d.entity ++ d.scale ++ wStr d.material

def tmRecord (t : STextMesh) : List Nat :=
  le 4 t.entity ++ wStr t.font ++ le 4 t.color ++ le 4 t.font_size ++ t.text

/-- An `OutputBlob` loop: write the element count, then append each
element's record. -/
def writeSection {α : Type} (f : α → List Nat) (l : List α) : List Nat :=
  l.foldl (fun acc x => acc ++ f x) (le 4 l.length)

def serializeCameras (l : List SCam) : List Nat := writeSection camRecord l

def serializeModelInstances (l : List SMI) : List Nat := writeSection miRecord l

def serializeLights (pl gl : List (List Nat)) (active : Nat) : List Nat :=
  writeSection id pl ++ writeSection id gl ++ le 4 active

def serializeTerrains (l : List (List Nat)) : List Nat := writeSection id l

def serializeParticleEmitters (l : List (List Nat)) : List Nat := writeSection id l

def serializeBoneAttachments (l : List SBoneAtt) : List Nat := writeSection baRecord l

def serializeEnvironmentProbes (l : List SProbe) : List Nat := writeSection probeRecord l

def serializeDecals (l : List SDecal) : List Nat := writeSection decalRecord l

def serializeTextMeshes (l : List STextMesh) : List Nat := writeSection tmRecord l

/-- `RenderSceneImpl::serialize`: the nine component-kind sections in the
source's fixed call order. -/
def serialize (s : SerScene) : List Nat :=
  serializeCameras s.cameras
    ++ serializeModelInstances s.model_instances
    ++ serializeLights s.point_lights s.global_lights s.active_global_light
    ++ serializeTerrains s.terrains
    ++ serializeParticleEmitters s.particle_emitters
    ++ serializeBoneAttachments s.bone_attachments
    ++ serializeEnvironmentProbes s.probes
    ++ serializeDecals s.decals
    ++ serializeTextMeshes s.text_meshes

theorem writeSection_eq {α : Type} (f : α → List Nat) (l : List α) :
    writeSection f l = le 4 l.length ++ (l.map f).join := by
  rw [writeSection]
  have haux : ∀ (m : List α) (acc : List Nat),
      m.foldl (fun a x => a ++ f x) acc = acc ++ (m.map f).join := by
    intro m
    induction m with
    | nil => intro acc; simp
    | cons hd tl ih =>
      intro acc
      rw [List.foldl_cons, ih]
      simp [List.append_assoc]
  exact haux l _

/-- C7: the whole-scene binary serializer emits exactly one section per
component kind in the fixed order cameras, model instances, lights,
terrains, particle emitters, bone attachments, environment probes,
decals, text meshes, each prefixed by its element count; and under the
model-instance table invariant (slot `i` stores entity `i` or the
invalid-entity sentinel — the property `deserializeModelInstances`
asserts), the `i`-th record of the model-instance section starts with the
raw entity field holding `i` or the sentinel. -/
theorem C7_serialize_layout (s : SerScene)
    (htable : ∀ (i : Nat) (r : SMI), s.model_instances[i]? = some r →
        r.entity = i ∨ r.entity = invalidEntity) :
    (serialize s =
      (le 4 s.cameras.length ++ (s.cameras.map camRecord).join)
      ++ (le 4 s.model_instances.length ++ (s.model_instances.map miRecord).join)
      ++ ((le 4 s.point_lights.length ++ s.point_lights.join)
          ++ (le 4 s.global_lights.length ++ s.global_lights.join)
          ++ le 4 s.active_global_light)
      ++ (le 4 s.terrains.length ++ s.terrains.join)
      ++ (le 4 s.particle_emitters.length ++ s.particle_emitters.join)
      ++ (le 4 s.bone_attachments.length ++ (s.bone_attachments.map baRecord).join)
      ++ (le 4 s.probes.length ++ (s.probes.map probeRecord).join)
      ++ (le 4 s.decals.length ++ (s.decals.map decalRecord).join)
      ++ (le 4 s.text_meshes.length ++ (s.text_meshes.map tmRecord).join))
    ∧ (∀ (i : Nat) (r : SMI), s.model_instances[i]? = some r →
        (s.model_instances.map miRecord)[i]? = some (le 4 r.entity ++ miRest r)
        ∧ (r.entity = i ∨ r.entity = invalidEntity)) := by
  constructor
  · rw [serialize, serializeCameras, serializeModelInstances, serializeLights,
      serializeTerrains, serializeParticleEmitters, serializeBoneAttachments,
      serializeEnvironmentProbes, serializeDecals, serializeTextMeshes]
    rw [writeSection_eq, writeSection_eq, writeSection_eq, writeSection_eq,
      writeSection_eq, writeSection_eq, writeSection_eq, writeSection_eq,
      writeSection_eq, writeSection_eq]
    simp [List.map_id]
  · intro i r hq
    refine ⟨?_, htable i r hq⟩
    rw [List.getElem?_map, hq]
    rfl

/-- A concrete scene for the C7 witness: one camera, a three-slot
model-instance table with a sparse hole at index 1, one point light, one
global light, one terrain, one particle emitter, one bone attachment, one
probe, one decal and one text mesh. -/
def c7Scene : SerScene :=
  ⟨[⟨2, 10, 11, 0, 12, 13⟩],
   [⟨0, 1, 99, false, []⟩, ⟨invalidEntity, 0, 0, false, []⟩, ⟨2, 1, 0, true, [[65]]⟩],
   [[1, 2, 3, 4]], [[5, 6]], 7,
   [[9]], [[8]],
   [⟨0, 3, 4294967295, [1, 2]⟩],
   [⟨3, 0, 1, 4, 32, 32, 1024⟩],
   [⟨4, [0, 0, 0, 0, 0, 0, 0, 0, 0, 0, 0, 0], [66]⟩],
   [⟨5, [67], 255, 13, [1, 1]⟩]⟩

/-- Witness for C7 at `c7Scene` (the table-invariant hypothesis is
discharged by case analysis on the three slots). -/
theorem C7_serialize_layout_witness :
    (serialize c7Scene =
      (le 4 c7Scene.cameras.length ++ (c7Scene.cameras.map camRecord).join)
      ++ (le 4 c7Scene.model_instances.length
            ++ (c7Scene.model_instances.map miRecord).join)
      ++ ((le 4 c7Scene.point_lights.length ++ c7Scene.point_lights.join)
          ++ (le 4 c7Scene.global_lights.length ++ c7Scene.global_lights.join)
          ++ le 4 c7Scene.active_global_light)
      ++ (le 4 c7Scene.terrains.length ++ c7Scene.terrains.join)
      ++ (le 4 c7Scene.particle_emitters.length ++ c7Scene.particle_emitters.join)
      ++ (le 4 c7Scene.bone_attachments.length
            ++ (c7Scene.bone_attachments.map baRecord).join)
      ++ (le 4 c7Scene.probes.length ++ (c7Scene.probes.map probeRecord).join)
      ++ (le 4 c7Scene.decals.length ++ (c7Scene.decals.map decalRecord).join)
      ++ (le 4 c7Scene.text_meshes.length ++ (c7Scene.text_meshes.map tmRecord).join))
    ∧ (∀ (i : Nat) (r : SMI), c7Scene.model_instances[i]? = some r →
        (c7Scene.model_instances.map miRecord)[i]? = some (le 4 r.entity ++ miRest r)
        ∧ (r.entity = i ∨ r.entity = invalidEntity)) :=
  C7_serialize_layout c7Scene
    (by
      intro i r h
      match i with
      | 0 =>
        simp only [c7Scene] at h
        cases h
        exact Or.inl rfl
      | 1 =>
        simp only [c7Scene] at h
        cases h
        exact Or.inr rfl
      | 2 =>
        simp only [c7Scene] at h
        cases h
        exact Or.inl rfl
      | n + 3 => simp [c7Scene] at h)

/-- `RenderSceneImpl::deserializeEnvironmentProbes`, at byte level: read
the probe count, then per probe the entity, guid, flags and the three
sizes — the source never reads the `radius` field that
`serializeEnvironmentProbes` wrote (the freshly inserted probe's `radius`
keeps whatever value it was constructed with; modelled here as raw 0). -/
def rdProbesLoop : Nat → List Nat → Option (List SProbe × List Nat)
  | 0, bs => some ([], bs)
  | n + 1, bs =>
    match rdN 4 bs with
    | none => none
    | some (entity, r1) =>
      match rdN 8 r1 with
      | none => none
      | some (guid, r2) =>
        match rdN 4 r2 with
        | none => none
        | some (flags, r3) =>
          match rdN 2 r3 with
          | none => none
          | some (rad, r4) =>
            match rdN 2 r4 with
            | none => none
            | some (irr, r5) =>
              match rdN 2 r5 with
              | none => none
              | some (refl, r6) =>
                match rdProbesLoop n r6 with
                | none => none
                | some (rest, r7) =>
                  some (⟨entity, 0, guid, flags, rad, irr, refl⟩ :: rest, r7)

def deserializeEnvironmentProbes (bs : List Nat) : Option (List SProbe × List Nat) :=
  match rdN 4 bs with
  | none => none
  | some (count, r) => rdProbesLoop count r

/-- One environment probe with radius bits 0 and guid 1 — the C1 failing
input. -/
def c1Probe : SProbe := ⟨3, 0, 1, 4, 32, 32, 1024⟩

/-- C1 (code bug): serializing the environment-probe section and feeding
it back to the binary deserializer does not reproduce the persisted
fields — `serializeEnvironmentProbes` writes `radius` between the entity
and the guid but `deserializeEnvironmentProbes` never reads it, so the
guid is read 4 bytes early (1 comes back as 2^32), every following field
is wrong, and 4 bytes of the section are left over to corrupt the next
section of the whole-scene stream. -/
theorem C1_probe_section_roundtrip_broken :
    deserializeEnvironmentProbes (serializeEnvironmentProbes [c1Probe])
      = some ([⟨3, 0, 4294967296, 0, 4, 0, 32⟩], [32, 0, 0, 4])
    ∧ (4294967296 : Nat) ≠ c1Probe.guid
    ∧ ([32, 0, 0, 4] : List Nat) ≠ [] := by
  refine ⟨by decide, by decide, by decide⟩

end LumixSpec
